import Mathlib

/-!
# concourse: sentinel errors of package `db`, the build server constructor and
# the counterfeiter fake of `JobServiceDB`

Shallow embedding of

* `src/db/errors.go`: the four package-level error variables, built by `errors.New`;
* `src/atc/api/buildserver/server.go`: the `Server` struct and `NewServer`;
* `src/db/fakes/fake_job_service_db.go`: `FakeJobServiceDB` and its methods.

Go values are modelled as follows.

* A Go `error` built by `errors.New` is a pointer to a freshly allocated
  `errorString`.  The heap of `errorString` objects is a list and an address is
  an index into it, so that two calls of `errors.New` give different values
  even on equal text, as in Go.
* A struct is a Lean structure with the same field names; a method with a
  pointer receiver takes the struct, or the state that holds it, and returns
  the updated one.
* A value of a slice type that is passed in or out is a slice header into a
  shared array, so that aliasing is kept. A slice that one struct alone holds
  and only appends to is a `List` (the `nil` slice is `[]`).
* A `func` field that may be `nil` is an `Option`; the function it holds is a
  program that may act on the state it runs in.
* Types that are declared outside the three source files are type parameters;
  the zero value of such a type is the `default` of an `Inhabited` instance.
-/

set_option autoImplicit false

/-! ## Package `errors` of the Go standard library -/

namespace errors

/-- Type `errorString` of the Go standard library: `struct { s string }`. -/
structure errorString where
  s : String
deriving DecidableEq, Repr

/-- Heap of the allocated `errorString` objects; the address of an object is its index. -/
abbrev Heap := List errorString

/-- An `error` interface value whose dynamic type is `*errorString`: either `nil`
or the address of an `errorString`. Two such values are equal when they are both
`nil` or hold the same address. -/
inductive error where
  | nil
  | ptr (addr : Nat)
deriving DecidableEq, Repr

/-- Function `errors.New`: `return &errorString{text}`. A new object is allocated
at the end of the heap and its address is returned. -/
def New (text : String) (h : Heap) : error × Heap :=
  (error.ptr h.length, h ++ [{ s := text }])

/-- Method `(*errorString).Error`: `return e.s`. The result is `none` where Go
panics: on the `nil` interface and on an address that is not allocated. -/
def Error (h : Heap) : error → Option String
  | error.nil => none
  | error.ptr a => (h.get? a).map errorString.s

end errors

/-! ## Package `db`: `errors.go` -/

namespace db

open errors

/-- The package-level variables declared in `errors.go`, in declaration order. -/
structure Vars where
  ErrNoVersions : error
  ErrPipelineNotFound : error
  ErrLockRowNotPresentOrAlreadyDeleted : error
  ErrLockNotAvailable : error
deriving DecidableEq, Repr

/-- Package initialisation of `errors.go`: the four `var X = errors.New("...")`
declarations, run in source order on the heap `h` left by earlier initialisers. -/
def init (h : Heap) : Vars × Heap :=
  let (e1, h1) := New "no versions found" h
  let (e2, h2) := New "pipeline not found" h1
  let (e3, h3) :=
    New "lock could not be acquired because it didn't exist or was already cleaned up" h2
  let (e4, h4) := New "lock is currently held and cannot be immediately acquired" h3
  ({ ErrNoVersions := e1
     ErrPipelineNotFound := e2
     ErrLockRowNotPresentOrAlreadyDeleted := e3
     ErrLockNotAvailable := e4 }, h4)

/-- Every error value that `errors.go` exposes, in declaration order. -/
def sentinels (v : Vars) : List error :=
  [v.ErrNoVersions, v.ErrPipelineNotFound, v.ErrLockRowNotPresentOrAlreadyDeleted,
   v.ErrLockNotAvailable]

end db

/-! ## Package `auth`: the rejectors used by `server.go` -/

namespace auth

/-- Modelled from the spec: the struct type `auth.UnauthorizedRejector` is declared
in package `auth`, outside the source files at hand. `server.go` builds it with the
empty composite literal `auth.UnauthorizedRejector{}`, so it is a struct whose
fields, if any, all hold their zero value; the spec calls it the rejection policy
that returns an explicit unauthorized outcome. -/
structure UnauthorizedRejector where
deriving DecidableEq, Repr

/-- Modelled from the spec: the interface type `auth.Rejector` is declared in
package `auth`, outside the source files at hand. An interface value is `nil`,
or holds an `UnauthorizedRejector`, or holds a value of some other implementing
type, which is named by a tag. -/
inductive Rejector where
  | nil
  | unauthorized (r : UnauthorizedRejector)
  | other (typeName : String)
deriving DecidableEq, Repr

end auth

/-! ## Package `buildserver`: `server.go` -/

namespace buildserver

/-- Struct `Server`. The types `lager.Logger`, `worker.Client`, `db.TeamFactory`,
`db.BuildFactory`, `EventHandlerFactory` and `<-chan struct{}` are declared
outside `server.go` (or are opaque to it) and are type parameters here. -/
structure Server (Logger WorkerClient TeamFactory BuildFactory EventHandlerFactory
    Chan : Type) where
  logger : Logger
  externalURL : String
  peerURL : String
  workerClient : WorkerClient
  teamFactory : TeamFactory
  buildFactory : BuildFactory
  eventHandlerFactory : EventHandlerFactory
  drain : Chan
  rejector : auth.Rejector

/-- Function `NewServer`: the composite literal `&Server{...}` of the source, field
by field. -/
def NewServer {Logger WorkerClient TeamFactory BuildFactory EventHandlerFactory
    Chan : Type}
    (logger : Logger)
    (externalURL : String)
    (peerURL : String)
    (workerClient : WorkerClient)
    (teamFactory : TeamFactory)
    (buildFactory : BuildFactory)
    (eventHandlerFactory : EventHandlerFactory)
    (drain : Chan) :
    Server Logger WorkerClient TeamFactory BuildFactory EventHandlerFactory Chan :=
  { logger := logger
    externalURL := externalURL
    peerURL := peerURL
    workerClient := workerClient
    teamFactory := teamFactory
    buildFactory := buildFactory
    eventHandlerFactory := eventHandlerFactory
    drain := drain
    rejector := auth.Rejector.unauthorized {} }

end buildserver

/-! ## Package `fakes`: `fake_job_service_db.go`

`db.SavedJob` and `db.Build` are declared outside the file and are the type
parameters `SavedJob` and `Build`. A Go `error` is `Option Err`, with `none` for
`nil`.

A value of type `[]string` or `[]db.Build` is a slice header, `Slice`: the
fake stores, passes and returns such a value without copying the array behind
it, so the caller, a stub and the record of a call share one array. The arrays
of strings are kept in `State.strings`; the arrays of builds are never read by
a claim and belong to the outside state.

A stub is a Go closure. It is a program, `Prog`: besides returning its results
it may call every exported method of the fake, assign the exported `Stub`
fields, compare them with `nil` and call the function they hold, read and write
the elements of slices, and read and write the outside state `W`. A test is such a program too. `eval` runs a program; the faked
methods call it to run their stub. A run that panics, or does not return within
the given number of steps, has no result.

The mutexes guard the argument records against concurrent callers; calls are
modelled one at a time, where locking has no effect. -/

namespace fakes

/-- A value of a Go slice type, the slice header: a pointer into an array (the
array and the position of the first element; `none` is the nil pointer), a
length and a capacity. -/
structure Slice where
  ptr : Option (Nat × Nat)
  len : Nat
  cap : Nat
deriving DecidableEq, Repr

/-- The nil slice, the zero value of a slice type. -/
def Slice.zero : Slice := { ptr := none, len := 0, cap := 0 }

/-- The arrays of strings that slices point into; an array is named by its
position in the list. -/
abbrev Arrays := List (List String)

/-- The strings of a slice, `sl[0], ..., sl[len-1]`; `none` when the header does
not fit an array of the memory. -/
def contents (mem : Arrays) (sl : Slice) : Option (List String) :=
  match sl.ptr with
  | none => if sl.len = 0 then some [] else none
  | some (a, off) =>
    match mem[a]? with
    | none => none
    | some arr => if off + sl.len ≤ arr.length then some ((arr.drop off).take sl.len) else none

/-- Go expression `sl[i]`; `none` where Go panics. -/
def index (mem : Arrays) (sl : Slice) (i : Int) : Option String :=
  if 0 ≤ i ∧ i.toNat < sl.len then
    match sl.ptr with
    | none => none
    | some (a, off) => mem[a]?.bind fun arr => arr[off + i.toNat]?
  else none

/-- Go statement `sl[i] = v`; `none` where Go panics. -/
def assign (mem : Arrays) (sl : Slice) (i : Int) (v : String) : Option Arrays :=
  if 0 ≤ i ∧ i.toNat < sl.len then
    match sl.ptr with
    | none => none
    | some (a, off) =>
      match mem[a]? with
      | none => none
      | some arr =>
        if off + i.toNat < arr.length then some (mem.set a (arr.set (off + i.toNat) v))
        else none
  else none

/-- Go composite literal `[]string{x0, x1, ...}`: a new array and a slice of all
of it. -/
def make (mem : Arrays) (xs : List String) : Slice × Arrays :=
  ({ ptr := some (mem.length, 0), len := xs.length, cap := xs.length }, mem ++ [xs])

/-- The three faked methods of `JobServiceDB`. -/
inductive Method where
  | GetJob
  | GetRunningBuildsBySerialGroup
  | GetNextPendingBuildBySerialGroup
deriving DecidableEq, Repr

/-- The results of a program: a stub of a method returns the results of that
method, a test (`none`) returns nothing. -/
def Res (SavedJob Build Err : Type) : Option Method → Type
  | none => Unit
  | some Method.GetJob => SavedJob × Option Err
  | some Method.GetRunningBuildsBySerialGroup => Slice × Option Err
  | some Method.GetNextPendingBuildBySerialGroup => Build × Bool × Option Err

/-- A Go program that works on the fake from outside package `fakes`: a test
(`k = none`) or the body of a stub of method `m` (`k = some m`). Each
constructor but `ret` is one action followed by the rest of the program, which
may depend on what the action returned. -/
inductive Prog (SavedJob Build Err W : Type) : Option Method → Type where
  | ret {k : Option Method} (r : Res SavedJob Build Err k) : Prog SavedJob Build Err W k
  | callGetJob {k : Option Method} (job : String)
      (cont : SavedJob × Option Err → Prog SavedJob Build Err W k) :
      Prog SavedJob Build Err W k
  | getJobCallCount {k : Option Method} (cont : Int → Prog SavedJob Build Err W k) :
      Prog SavedJob Build Err W k
  | getJobArgsForCall {k : Option Method} (i : Int)
      (cont : String → Prog SavedJob Build Err W k) : Prog SavedJob Build Err W k
  | getJobReturns {k : Option Method} (result1 : SavedJob) (result2 : Option Err)
      (cont : Prog SavedJob Build Err W k) : Prog SavedJob Build Err W k
  | assignGetJobStub {k : Option Method}
      (stub : String → Prog SavedJob Build Err W (some Method.GetJob))
      (cont : Prog SavedJob Build Err W k) : Prog SavedJob Build Err W k
  | clearGetJobStub {k : Option Method} (cont : Prog SavedJob Build Err W k) :
      Prog SavedJob Build Err W k
  | callGetRunningBuildsBySerialGroup {k : Option Method} (jobName : String)
      (serialGroups : Slice) (cont : Slice × Option Err → Prog SavedJob Build Err W k) :
      Prog SavedJob Build Err W k
  | getRunningBuildsBySerialGroupCallCount {k : Option Method}
      (cont : Int → Prog SavedJob Build Err W k) : Prog SavedJob Build Err W k
  | getRunningBuildsBySerialGroupArgsForCall {k : Option Method} (i : Int)
      (cont : String × Slice → Prog SavedJob Build Err W k) : Prog SavedJob Build Err W k
  | getRunningBuildsBySerialGroupReturns {k : Option Method} (result1 : Slice)
      (result2 : Option Err) (cont : Prog SavedJob Build Err W k) :
      Prog SavedJob Build Err W k
  | assignGetRunningBuildsBySerialGroupStub {k : Option Method}
      (stub : String → Slice →
        Prog SavedJob Build Err W (some Method.GetRunningBuildsBySerialGroup))
      (cont : Prog SavedJob Build Err W k) : Prog SavedJob Build Err W k
  | clearGetRunningBuildsBySerialGroupStub {k : Option Method}
      (cont : Prog SavedJob Build Err W k) : Prog SavedJob Build Err W k
  | callGetNextPendingBuildBySerialGroup {k : Option Method} (jobName : String)
      (serialGroups : Slice)
      (cont : Build × Bool × Option Err → Prog SavedJob Build Err W k) :
      Prog SavedJob Build Err W k
  | getNextPendingBuildBySerialGroupCallCount {k : Option Method}
      (cont : Int → Prog SavedJob Build Err W k) : Prog SavedJob Build Err W k
  | getNextPendingBuildBySerialGroupArgsForCall {k : Option Method} (i : Int)
      (cont : String × Slice → Prog SavedJob Build Err W k) : Prog SavedJob Build Err W k
  | getNextPendingBuildBySerialGroupReturns {k : Option Method} (result1 : Build)
      (result2 : Bool) (result3 : Option Err) (cont : Prog SavedJob Build Err W k) :
      Prog SavedJob Build Err W k
  | assignGetNextPendingBuildBySerialGroupStub {k : Option Method}
      (stub : String → Slice →
        Prog SavedJob Build Err W (some Method.GetNextPendingBuildBySerialGroup))
      (cont : Prog SavedJob Build Err W k) : Prog SavedJob Build Err W k
  | clearGetNextPendingBuildBySerialGroupStub {k : Option Method}
      (cont : Prog SavedJob Build Err W k) : Prog SavedJob Build Err W k
  | invokeGetJobStub {k : Option Method} (job : String)
      (cont : SavedJob × Option Err → Prog SavedJob Build Err W k) :
      Prog SavedJob Build Err W k
  | invokeGetRunningBuildsBySerialGroupStub {k : Option Method} (jobName : String)
      (serialGroups : Slice) (cont : Slice × Option Err → Prog SavedJob Build Err W k) :
      Prog SavedJob Build Err W k
  | invokeGetNextPendingBuildBySerialGroupStub {k : Option Method} (jobName : String)
      (serialGroups : Slice)
      (cont : Build × Bool × Option Err → Prog SavedJob Build Err W k) :
      Prog SavedJob Build Err W k
  | stubIsNil {k : Option Method} (m : Method) (cont : Bool → Prog SavedJob Build Err W k) :
      Prog SavedJob Build Err W k
  | makeStrings {k : Option Method} (xs : List String)
      (cont : Slice → Prog SavedJob Build Err W k) : Prog SavedJob Build Err W k
  | readString {k : Option Method} (sl : Slice) (i : Int)
      (cont : String → Prog SavedJob Build Err W k) : Prog SavedJob Build Err W k
  | writeString {k : Option Method} (sl : Slice) (i : Int) (v : String)
      (cont : Prog SavedJob Build Err W k) : Prog SavedJob Build Err W k
  | getW {k : Option Method} (cont : W → Prog SavedJob Build Err W k) :
      Prog SavedJob Build Err W k
  | putW {k : Option Method} (w : W) (cont : Prog SavedJob Build Err W k) :
      Prog SavedJob Build Err W k

/-- Element type of `getJobArgsForCall`: `struct { job string }`. -/
structure getJobArgs where
  job : String
deriving DecidableEq, Repr

/-- Element type of `getRunningBuildsBySerialGroupArgsForCall` and of
`getNextPendingBuildBySerialGroupArgsForCall`:
`struct { jobName string; serialGroups []string }`. The field `serialGroups`
holds the slice header that was passed, not a copy of its strings. -/
structure serialGroupArgs where
  jobName : String
  serialGroups : Slice
deriving DecidableEq, Repr

/-- Type of the field `getJobReturns`. -/
structure getJobResults (SavedJob Err : Type) where
  result1 : SavedJob
  result2 : Option Err

/-- Type of the field `getRunningBuildsBySerialGroupReturns`. -/
structure getRunningBuildsResults (Err : Type) where
  result1 : Slice
  result2 : Option Err

/-- Type of the field `getNextPendingBuildBySerialGroupReturns`. -/
structure getNextPendingBuildResults (Build Err : Type) where
  result1 : Build
  result2 : Bool
  result3 : Option Err

/-- Struct `FakeJobServiceDB`, without its three mutex fields. The record slices
are lists: the fake alone holds them and only ever appends to them. -/
structure FakeJobServiceDB (SavedJob Build Err W : Type) where
  GetJobStub : Option (String → Prog SavedJob Build Err W (some Method.GetJob))
  getJobArgsForCall : List getJobArgs
  getJobReturns : getJobResults SavedJob Err
  GetRunningBuildsBySerialGroupStub :
    Option (String → Slice →
      Prog SavedJob Build Err W (some Method.GetRunningBuildsBySerialGroup))
  getRunningBuildsBySerialGroupArgsForCall : List serialGroupArgs
  getRunningBuildsBySerialGroupReturns : getRunningBuildsResults Err
  GetNextPendingBuildBySerialGroupStub :
    Option (String → Slice →
      Prog SavedJob Build Err W (some Method.GetNextPendingBuildBySerialGroup))
  getNextPendingBuildBySerialGroupArgsForCall : List serialGroupArgs
  getNextPendingBuildBySerialGroupReturns : getNextPendingBuildResults Build Err

/-- What a run does to the fake and to the arrays of strings, noted as it
happens. A call of a method with a slice argument notes the strings of the slice
at the time of the call. The events are kept in `State.trace`; no method of the
fake reads them. -/
inductive Event where
  | callGetJob (job : String)
  | callGetRunningBuildsBySerialGroup (jobName : String) (serialGroups : Slice)
      (strings : Option (List String))
  | callGetNextPendingBuildBySerialGroup (jobName : String) (serialGroups : Slice)
      (strings : Option (List String))
  | configure (m : Method)
  | write
deriving DecidableEq, Repr

/-- The state a program works on: the fake, the arrays of strings, the outside
state of the closures, and the events so far. -/
structure State (SavedJob Build Err W : Type) where
  fake : FakeJobServiceDB SavedJob Build Err W
  strings : Arrays
  w : W
  trace : List Event

/-- The way a faked method runs its stub: an interpreter of programs. -/
abbrev Runner (SavedJob Build Err W : Type) : Type :=
  {k : Option Method} → Prog SavedJob Build Err W k → State SavedJob Build Err W →
    Option (Res SavedJob Build Err k × State SavedJob Build Err W)

section methods

variable {SavedJob Build Err W : Type}

/-- The zero value of `FakeJobServiceDB`, as given by `new(FakeJobServiceDB)`: every
stub is `nil`, every record slice is `nil`, every configured result is the zero
value of its type. -/
def zero [Inhabited SavedJob] [Inhabited Build] : FakeJobServiceDB SavedJob Build Err W :=
  { GetJobStub := none
    getJobArgsForCall := []
    getJobReturns := { result1 := default, result2 := none }
    GetRunningBuildsBySerialGroupStub := none
    getRunningBuildsBySerialGroupArgsForCall := []
    getRunningBuildsBySerialGroupReturns := { result1 := Slice.zero, result2 := none }
    GetNextPendingBuildBySerialGroupStub := none
    getNextPendingBuildBySerialGroupArgsForCall := []
    getNextPendingBuildBySerialGroupReturns :=
      { result1 := default, result2 := false, result3 := none } }

/-- A state with a zero-value fake and no event yet. -/
def State.zero [Inhabited SavedJob] [Inhabited Build] (strings : Arrays) (w : W) :
    State SavedJob Build Err W :=
  { fake := fakes.zero, strings := strings, w := w, trace := [] }

/-- Method `GetJob`: record the argument, then answer by the stub when it is not
`nil` and by the configured results otherwise. The stub runs on the fake that
already holds the record, and the method returns what the stub returns, in the
state the stub leaves. -/
def GetJob (run : Runner SavedJob Build Err W) (s : State SavedJob Build Err W)
    (job : String) : Option ((SavedJob × Option Err) × State SavedJob Build Err W) :=
  let s1 := { s with
    fake := { s.fake with
      getJobArgsForCall := s.fake.getJobArgsForCall ++ [getJobArgs.mk job] } }
  match s1.fake.GetJobStub with
  | some stub => run (stub job) s1
  | none => some ((s1.fake.getJobReturns.result1, s1.fake.getJobReturns.result2), s1)

/-- Method `GetJobCallCount`: `len(fake.getJobArgsForCall)`. The length of a Go
slice always fits the type `int`, so the count is the length of the list. -/
def GetJobCallCount (fake : FakeJobServiceDB SavedJob Build Err W) : Int :=
  (fake.getJobArgsForCall.length : Int)

/-- Method `GetJobArgsForCall`: `fake.getJobArgsForCall[i].job`; `none` where the
index is out of range and Go panics. -/
def GetJobArgsForCall (fake : FakeJobServiceDB SavedJob Build Err W) (i : Int) :
    Option String :=
  if 0 ≤ i then fake.getJobArgsForCall[i.toNat]?.map getJobArgs.job else none

/-- Method `GetJobReturns`: clear the stub and store the results. -/
def GetJobReturns (fake : FakeJobServiceDB SavedJob Build Err W)
    (result1 : SavedJob) (result2 : Option Err) : FakeJobServiceDB SavedJob Build Err W :=
  let fake1 := { fake with GetJobStub := none }
  { fake1 with getJobReturns := { result1 := result1, result2 := result2 } }

/-- Method `GetRunningBuildsBySerialGroup`. The slice header `serialGroups` goes
into the record and to the stub as it is. -/
def GetRunningBuildsBySerialGroup (run : Runner SavedJob Build Err W)
    (s : State SavedJob Build Err W) (jobName : String) (serialGroups : Slice) :
    Option ((Slice × Option Err) × State SavedJob Build Err W) :=
  let s1 := { s with
    fake := { s.fake with
      getRunningBuildsBySerialGroupArgsForCall :=
        s.fake.getRunningBuildsBySerialGroupArgsForCall ++
          [serialGroupArgs.mk jobName serialGroups] } }
  match s1.fake.GetRunningBuildsBySerialGroupStub with
  | some stub => run (stub jobName serialGroups) s1
  | none =>
    some ((s1.fake.getRunningBuildsBySerialGroupReturns.result1,
      s1.fake.getRunningBuildsBySerialGroupReturns.result2), s1)

/-- Method `GetRunningBuildsBySerialGroupCallCount`. -/
def GetRunningBuildsBySerialGroupCallCount (fake : FakeJobServiceDB SavedJob Build Err W) :
    Int :=
  (fake.getRunningBuildsBySerialGroupArgsForCall.length : Int)

/-- Method `GetRunningBuildsBySerialGroupArgsForCall`: the job name and the slice
header of the record; `none` where Go panics. -/
def GetRunningBuildsBySerialGroupArgsForCall (fake : FakeJobServiceDB SavedJob Build Err W)
    (i : Int) : Option (String × Slice) :=
  if 0 ≤ i then
    fake.getRunningBuildsBySerialGroupArgsForCall[i.toNat]?.map
      (fun a => (a.jobName, a.serialGroups))
  else none

/-- Method `GetRunningBuildsBySerialGroupReturns`. -/
def GetRunningBuildsBySerialGroupReturns (fake : FakeJobServiceDB SavedJob Build Err W)
    (result1 : Slice) (result2 : Option Err) : FakeJobServiceDB SavedJob Build Err W :=
  let fake1 := { fake with GetRunningBuildsBySerialGroupStub := none }
  { fake1 with
    getRunningBuildsBySerialGroupReturns := { result1 := result1, result2 := result2 } }

/-- Method `GetNextPendingBuildBySerialGroup`. -/
def GetNextPendingBuildBySerialGroup (run : Runner SavedJob Build Err W)
    (s : State SavedJob Build Err W) (jobName : String) (serialGroups : Slice) :
    Option ((Build × Bool × Option Err) × State SavedJob Build Err W) :=
  let s1 := { s with
    fake := { s.fake with
      getNextPendingBuildBySerialGroupArgsForCall :=
        s.fake.getNextPendingBuildBySerialGroupArgsForCall ++
          [serialGroupArgs.mk jobName serialGroups] } }
  match s1.fake.GetNextPendingBuildBySerialGroupStub with
  | some stub => run (stub jobName serialGroups) s1
  | none =>
    some ((s1.fake.getNextPendingBuildBySerialGroupReturns.result1,
      s1.fake.getNextPendingBuildBySerialGroupReturns.result2,
      s1.fake.getNextPendingBuildBySerialGroupReturns.result3), s1)

/-- Method `GetNextPendingBuildBySerialGroupCallCount`. -/
def GetNextPendingBuildBySerialGroupCallCount
    (fake : FakeJobServiceDB SavedJob Build Err W) : Int :=
  (fake.getNextPendingBuildBySerialGroupArgsForCall.length : Int)

/-- Method `GetNextPendingBuildBySerialGroupArgsForCall`; `none` where Go panics. -/
def GetNextPendingBuildBySerialGroupArgsForCall
    (fake : FakeJobServiceDB SavedJob Build Err W) (i : Int) :
    Option (String × Slice) :=
  if 0 ≤ i then
    fake.getNextPendingBuildBySerialGroupArgsForCall[i.toNat]?.map
      (fun a => (a.jobName, a.serialGroups))
  else none

/-- Method `GetNextPendingBuildBySerialGroupReturns`. -/
def GetNextPendingBuildBySerialGroupReturns (fake : FakeJobServiceDB SavedJob Build Err W)
    (result1 : Build) (result2 : Bool) (result3 : Option Err) :
    FakeJobServiceDB SavedJob Build Err W :=
  let fake1 := { fake with GetNextPendingBuildBySerialGroupStub := none }
  { fake1 with
    getNextPendingBuildBySerialGroupReturns :=
      { result1 := result1, result2 := result2, result3 := result3 } }

/-! ### Running a program -/

/-- The state with one more event noted. -/
def State.note (s : State SavedJob Build Err W) (e : Event) : State SavedJob Build Err W :=
  { s with trace := s.trace ++ [e] }

/-- Run a program for at most `fuel` actions. The result is `none` when an action
panics or the fuel runs out. A call of a faked method runs the stub, if any,
with the fuel that is left. -/
def eval : Nat → Runner SavedJob Build Err W
  | 0, _, _, _ => none
  | _ + 1, _, Prog.ret r, s => some (r, s)
  | n + 1, _, Prog.callGetJob job cont, s =>
    match GetJob (fun p st => eval n p st) (s.note (Event.callGetJob job)) job with
    | some (r, s1) => eval n (cont r) s1
    | none => none
  | n + 1, _, Prog.getJobCallCount cont, s => eval n (cont (GetJobCallCount s.fake)) s
  | n + 1, _, Prog.getJobArgsForCall i cont, s =>
    match GetJobArgsForCall s.fake i with
    | some a => eval n (cont a) s
    | none => none
  | n + 1, _, Prog.getJobReturns result1 result2 cont, s =>
    eval n cont
      { s.note (Event.configure Method.GetJob) with
        fake := GetJobReturns s.fake result1 result2 }
  | n + 1, _, Prog.assignGetJobStub stub cont, s =>
    eval n cont
      { s.note (Event.configure Method.GetJob) with
        fake := { s.fake with GetJobStub := some stub } }
  | n + 1, _, Prog.clearGetJobStub cont, s =>
    eval n cont
      { s.note (Event.configure Method.GetJob) with
        fake := { s.fake with GetJobStub := none } }
  | n + 1, _, Prog.callGetRunningBuildsBySerialGroup jobName serialGroups cont, s =>
    match GetRunningBuildsBySerialGroup (fun p st => eval n p st)
        (s.note (Event.callGetRunningBuildsBySerialGroup jobName serialGroups
          (contents s.strings serialGroups))) jobName serialGroups with
    | some (r, s1) => eval n (cont r) s1
    | none => none
  | n + 1, _, Prog.getRunningBuildsBySerialGroupCallCount cont, s =>
    eval n (cont (GetRunningBuildsBySerialGroupCallCount s.fake)) s
  | n + 1, _, Prog.getRunningBuildsBySerialGroupArgsForCall i cont, s =>
    match GetRunningBuildsBySerialGroupArgsForCall s.fake i with
    | some a => eval n (cont a) s
    | none => none
  | n + 1, _, Prog.getRunningBuildsBySerialGroupReturns result1 result2 cont, s =>
    eval n cont
      { s.note (Event.configure Method.GetRunningBuildsBySerialGroup) with
        fake := GetRunningBuildsBySerialGroupReturns s.fake result1 result2 }
  | n + 1, _, Prog.assignGetRunningBuildsBySerialGroupStub stub cont, s =>
    eval n cont
      { s.note (Event.configure Method.GetRunningBuildsBySerialGroup) with
        fake := { s.fake with GetRunningBuildsBySerialGroupStub := some stub } }
  | n + 1, _, Prog.clearGetRunningBuildsBySerialGroupStub cont, s =>
    eval n cont
      { s.note (Event.configure Method.GetRunningBuildsBySerialGroup) with
        fake := { s.fake with GetRunningBuildsBySerialGroupStub := none } }
  | n + 1, _, Prog.callGetNextPendingBuildBySerialGroup jobName serialGroups cont, s =>
    match GetNextPendingBuildBySerialGroup (fun p st => eval n p st)
        (s.note (Event.callGetNextPendingBuildBySerialGroup jobName serialGroups
          (contents s.strings serialGroups))) jobName serialGroups with
    | some (r, s1) => eval n (cont r) s1
    | none => none
  | n + 1, _, Prog.getNextPendingBuildBySerialGroupCallCount cont, s =>
    eval n (cont (GetNextPendingBuildBySerialGroupCallCount s.fake)) s
  | n + 1, _, Prog.getNextPendingBuildBySerialGroupArgsForCall i cont, s =>
    match GetNextPendingBuildBySerialGroupArgsForCall s.fake i with
    | some a => eval n (cont a) s
    | none => none
  | n + 1, _, Prog.getNextPendingBuildBySerialGroupReturns result1 result2 result3 cont, s =>
    eval n cont
      { s.note (Event.configure Method.GetNextPendingBuildBySerialGroup) with
        fake := GetNextPendingBuildBySerialGroupReturns s.fake result1 result2 result3 }
  | n + 1, _, Prog.assignGetNextPendingBuildBySerialGroupStub stub cont, s =>
    eval n cont
      { s.note (Event.configure Method.GetNextPendingBuildBySerialGroup) with
        fake := { s.fake with GetNextPendingBuildBySerialGroupStub := some stub } }
  | n + 1, _, Prog.clearGetNextPendingBuildBySerialGroupStub cont, s =>
    eval n cont
      { s.note (Event.configure Method.GetNextPendingBuildBySerialGroup) with
        fake := { s.fake with GetNextPendingBuildBySerialGroupStub := none } }
  | n + 1, _, Prog.invokeGetJobStub job cont, s =>
    match s.fake.GetJobStub with
    | some stub =>
      match eval n (stub job) s with
      | some (r, s1) => eval n (cont r) s1
      | none => none
    | none => none
  | n + 1, _, Prog.invokeGetRunningBuildsBySerialGroupStub jobName serialGroups cont, s =>
    match s.fake.GetRunningBuildsBySerialGroupStub with
    | some stub =>
      match eval n (stub jobName serialGroups) s with
      | some (r, s1) => eval n (cont r) s1
      | none => none
    | none => none
  | n + 1, _, Prog.invokeGetNextPendingBuildBySerialGroupStub jobName serialGroups cont, s =>
    match s.fake.GetNextPendingBuildBySerialGroupStub with
    | some stub =>
      match eval n (stub jobName serialGroups) s with
      | some (r, s1) => eval n (cont r) s1
      | none => none
    | none => none
  | n + 1, _, Prog.stubIsNil m cont, s =>
    eval n (cont
      (match m with
        | Method.GetJob => s.fake.GetJobStub.isNone
        | Method.GetRunningBuildsBySerialGroup =>
          s.fake.GetRunningBuildsBySerialGroupStub.isNone
        | Method.GetNextPendingBuildBySerialGroup =>
          s.fake.GetNextPendingBuildBySerialGroupStub.isNone)) s
  | n + 1, _, Prog.makeStrings xs cont, s =>
    eval n (cont (make s.strings xs).1) { s with strings := (make s.strings xs).2 }
  | n + 1, _, Prog.readString sl i cont, s =>
    match index s.strings sl i with
    | some v => eval n (cont v) s
    | none => none
  | n + 1, _, Prog.writeString sl i v cont, s =>
    match assign s.strings sl i v with
    | some mem => eval n cont { s.note Event.write with strings := mem }
    | none => none
  | n + 1, _, Prog.getW cont, s => eval n (cont s.w) s
  | n + 1, _, Prog.putW w cont, s => eval n cont { s with w := w }

/-! ### Reading the events -/

/-- The arguments of the calls of `GetJob` among the events, in order. -/
def getJobCalls (evs : List Event) : List String :=
  evs.filterMap fun e =>
    match e with
    | Event.callGetJob job => some job
    | _ => none

/-- The calls of `GetRunningBuildsBySerialGroup` among the events, in order: the
job name, the slice header, and the strings of the slice at the time of the
call. -/
def getRunningBuildsBySerialGroupCalls (evs : List Event) :
    List (String × Slice × Option (List String)) :=
  evs.filterMap fun e =>
    match e with
    | Event.callGetRunningBuildsBySerialGroup jobName serialGroups strings =>
      some (jobName, serialGroups, strings)
    | _ => none

/-- The calls of `GetNextPendingBuildBySerialGroup` among the events, in order: the
job name, the slice header, and the strings of the slice at the time of the
call. -/
def getNextPendingBuildBySerialGroupCalls (evs : List Event) :
    List (String × Slice × Option (List String)) :=
  evs.filterMap fun e =>
    match e with
    | Event.callGetNextPendingBuildBySerialGroup jobName serialGroups strings =>
      some (jobName, serialGroups, strings)
    | _ => none

/-- The strings that are now read through the slice of record `i` of
`GetRunningBuildsBySerialGroup`. -/
def getRunningBuildsBySerialGroupStringsNow (s : State SavedJob Build Err W) (i : Int) :
    Option (List String) :=
  (GetRunningBuildsBySerialGroupArgsForCall s.fake i).bind fun a => contents s.strings a.2

/-- The strings that are now read through the slice of record `i` of
`GetNextPendingBuildBySerialGroup`. -/
def getNextPendingBuildBySerialGroupStringsNow (s : State SavedJob Build Err W) (i : Int) :
    Option (List String) :=
  (GetNextPendingBuildBySerialGroupArgsForCall s.fake i).bind fun a => contents s.strings a.2

/-- Every slice that was passed to a call among the events, and fitted the memory
then, still holds in `mem` the strings it held at the time of the call. -/
def Held (mem : Arrays) (evs : List Event) : Prop :=
  ∀ c ∈ getRunningBuildsBySerialGroupCalls evs ++ getNextPendingBuildBySerialGroupCalls evs,
    ∀ xs : List String, c.2.2 = some xs → contents mem c.2.1 = some xs

/-- What a run that noted the events `evs` has done to the state: `s1` comes from
`s` by those events. The records grow by the calls among the events; the stub
and the configured results of a method stay unless the method was configured;
the arrays of strings stay, and new ones may come, unless a string was
written. -/
structure Ext (s : State SavedJob Build Err W) (evs : List Event)
    (s1 : State SavedJob Build Err W) : Prop where
  trace : s1.trace = s.trace ++ evs
  getJob : s1.fake.getJobArgsForCall.map getJobArgs.job =
    s.fake.getJobArgsForCall.map getJobArgs.job ++ getJobCalls evs
  getRunning : s1.fake.getRunningBuildsBySerialGroupArgsForCall.map
      (fun a => (a.jobName, a.serialGroups)) =
    s.fake.getRunningBuildsBySerialGroupArgsForCall.map
      (fun a => (a.jobName, a.serialGroups)) ++
      (getRunningBuildsBySerialGroupCalls evs).map (fun c => (c.1, c.2.1))
  getNext : s1.fake.getNextPendingBuildBySerialGroupArgsForCall.map
      (fun a => (a.jobName, a.serialGroups)) =
    s.fake.getNextPendingBuildBySerialGroupArgsForCall.map
      (fun a => (a.jobName, a.serialGroups)) ++
      (getNextPendingBuildBySerialGroupCalls evs).map (fun c => (c.1, c.2.1))
  cfgGetJob : Event.configure Method.GetJob ∉ evs →
    s1.fake.GetJobStub = s.fake.GetJobStub ∧ s1.fake.getJobReturns = s.fake.getJobReturns
  cfgGetRunning : Event.configure Method.GetRunningBuildsBySerialGroup ∉ evs →
    s1.fake.GetRunningBuildsBySerialGroupStub = s.fake.GetRunningBuildsBySerialGroupStub ∧
      s1.fake.getRunningBuildsBySerialGroupReturns =
        s.fake.getRunningBuildsBySerialGroupReturns
  cfgGetNext : Event.configure Method.GetNextPendingBuildBySerialGroup ∉ evs →
    s1.fake.GetNextPendingBuildBySerialGroupStub =
        s.fake.GetNextPendingBuildBySerialGroupStub ∧
      s1.fake.getNextPendingBuildBySerialGroupReturns =
        s.fake.getNextPendingBuildBySerialGroupReturns
  strings : Event.write ∉ evs → ∃ more : Arrays, s1.strings = s.strings ++ more
  held : Event.write ∉ evs → Held s1.strings evs

/-! ### Sample runs -/

/-- A test in which a later call changes what an earlier record shows. One slice
`["prod", "staging"]` is passed to two calls of
`GetNextPendingBuildBySerialGroup`; the first is answered by the configured
results, the second by a stub that writes `"hijacked"` to element 0 of the slice
it is handed. -/
def aliasRun : Prog Nat Nat String Unit none :=
  Prog.makeStrings ["prod", "staging"] fun gs =>
  Prog.callGetNextPendingBuildBySerialGroup "deploy-a" gs fun _ =>
  Prog.assignGetNextPendingBuildBySerialGroupStub
    (fun _ sg => Prog.writeString sg 0 "hijacked" (Prog.ret (11, true, none))) <|
  Prog.callGetNextPendingBuildBySerialGroup "deploy-b" gs fun _ =>
  Prog.ret ()

/-- A test without a write to a slice: a call answered by the configured results,
the assignment of a stub that itself calls `GetJob`, a call answered by that
stub, a call of `Returns` and a call of `GetJob`. -/
def sampleRun : Prog Nat Nat String Unit none :=
  Prog.makeStrings ["prod"] fun g1 =>
  Prog.makeStrings ["prod", "staging"] fun g2 =>
  Prog.callGetNextPendingBuildBySerialGroup "deploy-a" g1 fun _ =>
  Prog.assignGetNextPendingBuildBySerialGroupStub
    (fun j _ => Prog.callGetJob j fun _ => Prog.ret (11, true, none)) <|
  Prog.callGetNextPendingBuildBySerialGroup "deploy-b" g2 fun _ =>
  Prog.getNextPendingBuildBySerialGroupReturns 10 true none <|
  Prog.callGetJob "deploy-a" fun _ =>
  Prog.ret ()

/-- A test that configures `GetJob` and `GetRunningBuildsBySerialGroup` and calls
`GetJob`, and leaves `GetNextPendingBuildBySerialGroup` as it is. -/
def otherRun : Prog Nat Nat String Unit none :=
  Prog.assignGetJobStub (fun _ => Prog.ret (3, none)) <|
  Prog.callGetJob "deploy-a" fun _ =>
  Prog.getRunningBuildsBySerialGroupReturns Slice.zero (some "storage") <|
  Prog.ret ()

/-- A fake whose stub of `GetNextPendingBuildBySerialGroup` answers
`(7, true, nil)`. -/
def stubbedState : State Nat Nat String Unit :=
  { (State.zero [["prod"]] () : State Nat Nat String Unit) with
    fake := { (zero : FakeJobServiceDB Nat Nat String Unit) with
      GetNextPendingBuildBySerialGroupStub := some (fun _ _ => Prog.ret (7, true, none)) } }

/-- A fake on which `GetRunningBuildsBySerialGroupReturns(nil, "storage")` was
called and then a stub was assigned that returns the slice it is handed and a
nil error. -/
def overriddenState : State Nat Nat String Unit :=
  { (State.zero [["prod", "staging"]] () : State Nat Nat String Unit) with
    fake := { GetRunningBuildsBySerialGroupReturns
        (zero : FakeJobServiceDB Nat Nat String Unit) Slice.zero (some "storage") with
      GetRunningBuildsBySerialGroupStub := some (fun _ sg => Prog.ret (sg, none)) } }

end methods

end fakes
/-! ## Theorems: package `db` -/

namespace db

open errors

/-- The variables and the heap after initialisation, spelled out. -/
theorem init_eq (h : Heap) :
    init h =
      ({ ErrNoVersions := error.ptr h.length
         ErrPipelineNotFound := error.ptr (h.length + 1)
         ErrLockRowNotPresentOrAlreadyDeleted := error.ptr (h.length + 2)
         ErrLockNotAvailable := error.ptr (h.length + 3) },
       h ++ [{ s := "no versions found" }, { s := "pipeline not found" },
         { s := "lock could not be acquired because it didn't exist or was already cleaned up" },
         { s := "lock is currently held and cannot be immediately acquired" }]) := by
  simp [init, New]

/-- Reading an object that was allocated behind the heap `h`. -/
theorem Error_append (h t : Heap) (k : Nat) :
    Error (h ++ t) (error.ptr (h.length + k)) = (t.get? k).map errorString.s := by
  simp [Error, List.getElem?_append_right]

/-- The message of `ErrNoVersions`. -/
theorem Error_ErrNoVersions (h : Heap) :
    Error (init h).2 (init h).1.ErrNoVersions = some "no versions found" := by
  rw [init_eq]
  exact Error_append h _ 0

/-- The message of `ErrPipelineNotFound`. -/
theorem Error_ErrPipelineNotFound (h : Heap) :
    Error (init h).2 (init h).1.ErrPipelineNotFound = some "pipeline not found" := by
  rw [init_eq]
  exact Error_append h _ 1

/-- The message of `ErrLockRowNotPresentOrAlreadyDeleted`. -/
theorem Error_ErrLockRowNotPresentOrAlreadyDeleted (h : Heap) :
    Error (init h).2 (init h).1.ErrLockRowNotPresentOrAlreadyDeleted =
      some "lock could not be acquired because it didn't exist or was already cleaned up" := by
  rw [init_eq]
  exact Error_append h _ 2

/-- The message of `ErrLockNotAvailable`. -/
theorem Error_ErrLockNotAvailable (h : Heap) :
    Error (init h).2 (init h).1.ErrLockNotAvailable =
      some "lock is currently held and cannot be immediately acquired" := by
  rw [init_eq]
  exact Error_append h _ 3

/-- The four addresses and the four messages after initialisation. -/
theorem sentinels_eq (h : Heap) :
    sentinels (init h).1 =
        [error.ptr h.length, error.ptr (h.length + 1), error.ptr (h.length + 2),
          error.ptr (h.length + 3)] ∧
      (sentinels (init h).1).map (Error (init h).2) =
        [some "no versions found", some "pipeline not found",
          some "lock could not be acquired because it didn't exist or was already cleaned up",
          some "lock is currently held and cannot be immediately acquired"] := by
  have h1 := Error_ErrNoVersions h
  have h2 := Error_ErrPipelineNotFound h
  have h3 := Error_ErrLockRowNotPresentOrAlreadyDeleted h
  have h4 := Error_ErrLockNotAvailable h
  refine ⟨by simp [sentinels, init_eq], ?_⟩
  simp only [sentinels, List.map_cons, List.map_nil, h1, h2, h3, h4]

/-- C2, as stated, fails: after package initialisation on the empty heap the
package holds an error value whose message is "pipeline not found", so it is not
true that no exposed error value stands for that condition. -/
theorem pipeline_not_found_is_an_error_value :
    ¬ (∀ e ∈ sentinels (init []).1, Error (init []).2 e ≠ some "pipeline not found") := by
  intro hall
  exact hall (init []).1.ErrPipelineNotFound (by simp [sentinels])
    (Error_ErrPipelineNotFound [])

/-- C2, amended: package `db` exposes an error value for the not-found condition of
a pipeline. `ErrPipelineNotFound` is a non-nil error, one of the package errors,
its message is "pipeline not found", and it is the only package error with that
message. -/
theorem ErrPipelineNotFound_is_the_not_found_error (h : Heap) :
    (init h).1.ErrPipelineNotFound ≠ error.nil ∧
      (init h).1.ErrPipelineNotFound ∈ sentinels (init h).1 ∧
      Error (init h).2 (init h).1.ErrPipelineNotFound = some "pipeline not found" ∧
      ((sentinels (init h).1).map (Error (init h).2)).count (some "pipeline not found") = 1 := by
  refine ⟨?_, ?_, Error_ErrPipelineNotFound h, ?_⟩
  · simp [init_eq]
  · simp [sentinels]
  · rw [(sentinels_eq h).2]
    decide

/-- C3: the lock outcomes can be told apart. `ErrLockNotAvailable` and
`ErrLockRowNotPresentOrAlreadyDeleted` are different values with different
messages; the four package errors are pairwise distinct values, none is nil, and
their four messages are pairwise distinct. -/
theorem sentinel_errors_pairwise_distinct (h : Heap) :
    (init h).1.ErrLockNotAvailable ≠ (init h).1.ErrLockRowNotPresentOrAlreadyDeleted ∧
      Error (init h).2 (init h).1.ErrLockNotAvailable ≠
        Error (init h).2 (init h).1.ErrLockRowNotPresentOrAlreadyDeleted ∧
      (sentinels (init h).1).Nodup ∧
      error.nil ∉ sentinels (init h).1 ∧
      none ∉ (sentinels (init h).1).map (Error (init h).2) ∧
      ((sentinels (init h).1).map (Error (init h).2)).Nodup := by
  refine ⟨?_, ?_, ?_, ?_, ?_, ?_⟩
  · simp [init_eq]
  · rw [Error_ErrLockNotAvailable, Error_ErrLockRowNotPresentOrAlreadyDeleted]
    decide
  · rw [(sentinels_eq h).1]
    simp
  · rw [(sentinels_eq h).1]
    simp
  · rw [(sentinels_eq h).2]
    decide
  · rw [(sentinels_eq h).2]
    decide

/-- C4: the lock-row-gone outcome is a single merged error. The message of
`ErrLockRowNotPresentOrAlreadyDeleted` is "lock could not be acquired because it
didn't exist or was already cleaned up"; among the four package errors that value
occurs once and that message occurs once; the other package errors are the three
with the messages "no versions found", "pipeline not found" and "lock is
currently held and cannot be immediately acquired", so no second value separates
a row that never existed from a row that was cleaned up. -/
theorem lock_row_gone_is_one_merged_error (h : Heap) :
    Error (init h).2 (init h).1.ErrLockRowNotPresentOrAlreadyDeleted =
        some "lock could not be acquired because it didn't exist or was already cleaned up" ∧
      (sentinels (init h).1).length = 4 ∧
      (sentinels (init h).1).count (init h).1.ErrLockRowNotPresentOrAlreadyDeleted = 1 ∧
      ((sentinels (init h).1).map (Error (init h).2)).count
          (some "lock could not be acquired because it didn't exist or was already cleaned up")
        = 1 ∧
      ((sentinels (init h).1).erase (init h).1.ErrLockRowNotPresentOrAlreadyDeleted).map
          (Error (init h).2) =
        [some "no versions found", some "pipeline not found",
          some "lock is currently held and cannot be immediately acquired"] := by
  have h1 := Error_ErrNoVersions h
  have h2 := Error_ErrPipelineNotFound h
  have h4 := Error_ErrLockNotAvailable h
  refine ⟨Error_ErrLockRowNotPresentOrAlreadyDeleted h, by simp [sentinels], ?_, ?_, ?_⟩
  · simp [sentinels, init_eq]
  · rw [(sentinels_eq h).2]
    decide
  · have e : (sentinels (init h).1).erase (init h).1.ErrLockRowNotPresentOrAlreadyDeleted =
        [(init h).1.ErrNoVersions, (init h).1.ErrPipelineNotFound,
          (init h).1.ErrLockNotAvailable] := by
      simp [sentinels, init_eq, List.erase_cons]
    rw [e]
    simp only [List.map_cons, List.map_nil, h1, h2, h4]

end db

/-! ## Theorems: package `buildserver` -/

namespace buildserver

/-- C5: for every choice of arguments the server built by `NewServer` has a
rejection policy installed, and it is the unauthorized rejector
`auth.UnauthorizedRejector{}`: the field is not nil, it is no other rejector, and
two servers built from any two lists of arguments, of whatever collaborator
types, hold the same rejector. -/
theorem NewServer_rejector_is_unauthorized
    {Logger WorkerClient TeamFactory BuildFactory EventHandlerFactory Chan : Type}
    {Logger2 WorkerClient2 TeamFactory2 BuildFactory2 EventHandlerFactory2 Chan2 : Type}
    (logger : Logger) (externalURL peerURL : String) (workerClient : WorkerClient)
    (teamFactory : TeamFactory) (buildFactory : BuildFactory)
    (eventHandlerFactory : EventHandlerFactory) (drain : Chan)
    (logger2 : Logger2) (externalURL2 peerURL2 : String) (workerClient2 : WorkerClient2)
    (teamFactory2 : TeamFactory2) (buildFactory2 : BuildFactory2)
    (eventHandlerFactory2 : EventHandlerFactory2) (drain2 : Chan2) :
    (NewServer logger externalURL peerURL workerClient teamFactory buildFactory
        eventHandlerFactory drain).rejector = auth.Rejector.unauthorized {} ∧
      (NewServer logger externalURL peerURL workerClient teamFactory buildFactory
        eventHandlerFactory drain).rejector ≠ auth.Rejector.nil ∧
      (∀ typeName : String,
        (NewServer logger externalURL peerURL workerClient teamFactory buildFactory
          eventHandlerFactory drain).rejector ≠ auth.Rejector.other typeName) ∧
      (NewServer logger externalURL peerURL workerClient teamFactory buildFactory
        eventHandlerFactory drain).rejector =
      (NewServer logger2 externalURL2 peerURL2 workerClient2 teamFactory2 buildFactory2
        eventHandlerFactory2 drain2).rejector := by
  refine ⟨rfl, ?_, ?_, rfl⟩
  · simp [NewServer]
  · intro typeName
    simp [NewServer]

/-- C6: `NewServer` keeps every collaborator it is given. Each of the fields
`logger`, `externalURL`, `peerURL`, `workerClient`, `teamFactory`, `buildFactory`,
`eventHandlerFactory` and `drain` of the returned server equals the argument of
the same name; the two URLs are neither swapped nor altered. -/
theorem NewServer_keeps_collaborators
    {Logger WorkerClient TeamFactory BuildFactory EventHandlerFactory Chan : Type}
    (logger : Logger) (externalURL peerURL : String) (workerClient : WorkerClient)
    (teamFactory : TeamFactory) (buildFactory : BuildFactory)
    (eventHandlerFactory : EventHandlerFactory) (drain : Chan) :
    (NewServer logger externalURL peerURL workerClient teamFactory buildFactory
        eventHandlerFactory drain).logger = logger ∧
      (NewServer logger externalURL peerURL workerClient teamFactory buildFactory
        eventHandlerFactory drain).externalURL = externalURL ∧
      (NewServer logger externalURL peerURL workerClient teamFactory buildFactory
        eventHandlerFactory drain).peerURL = peerURL ∧
      (NewServer logger externalURL peerURL workerClient teamFactory buildFactory
        eventHandlerFactory drain).workerClient = workerClient ∧
      (NewServer logger externalURL peerURL workerClient teamFactory buildFactory
        eventHandlerFactory drain).teamFactory = teamFactory ∧
      (NewServer logger externalURL peerURL workerClient teamFactory buildFactory
        eventHandlerFactory drain).buildFactory = buildFactory ∧
      (NewServer logger externalURL peerURL workerClient teamFactory buildFactory
        eventHandlerFactory drain).eventHandlerFactory = eventHandlerFactory ∧
      (NewServer logger externalURL peerURL workerClient teamFactory buildFactory
        eventHandlerFactory drain).drain = drain :=
  ⟨rfl, rfl, rfl, rfl, rfl, rfl, rfl, rfl⟩

end buildserver


/-! ## Theorems: package `fakes` -/

namespace fakes

section lemmas

variable {SavedJob Build Err W : Type}

/-- A slice keeps its strings when arrays are added to the memory. -/
theorem contents_append (mem more : Arrays) (sl : Slice) (xs : List String)
    (h : contents mem sl = some xs) : contents (mem ++ more) sl = some xs := by
  unfold contents at h ⊢
  cases hp : sl.ptr with
  | none => simpa [hp] using h
  | some p =>
    obtain ⟨a, off⟩ := p
    simp only [hp] at h ⊢
    cases ha : mem[a]? with
    | none => simp [ha] at h
    | some arr =>
      have hlt : a < mem.length := by
        by_contra hge
        rw [List.getElem?_eq_none (Nat.le_of_not_lt hge)] at ha
        cases ha
      rw [List.getElem?_append_left hlt, ha]
      rw [ha] at h
      exact h

/-- What held in a memory holds when arrays are added to it. -/
theorem Held.append {mem : Arrays} {evs : List Event} (h : Held mem evs) (more : Arrays) :
    Held (mem ++ more) evs :=
  fun c hc xs hxs => contents_append mem more c.2.1 xs (h c hc xs hxs)

/-- No event, no change. -/
theorem Ext.refl (s : State SavedJob Build Err W) : Ext s [] s where
  trace := by simp
  getJob := by simp [getJobCalls]
  getRunning := by simp [getRunningBuildsBySerialGroupCalls]
  getNext := by simp [getNextPendingBuildBySerialGroupCalls]
  cfgGetJob := fun _ => ⟨rfl, rfl⟩
  cfgGetRunning := fun _ => ⟨rfl, rfl⟩
  cfgGetNext := fun _ => ⟨rfl, rfl⟩
  strings := fun _ => ⟨[], by simp⟩
  held := fun _ c hc => by
    simp [getRunningBuildsBySerialGroupCalls, getNextPendingBuildBySerialGroupCalls] at hc

/-- The calls of `GetJob` among events in two parts. -/
theorem getJobCalls_append (e1 e2 : List Event) :
    getJobCalls (e1 ++ e2) = getJobCalls e1 ++ getJobCalls e2 := by
  simp [getJobCalls]

/-- The calls of `GetRunningBuildsBySerialGroup` among events in two parts. -/
theorem getRunningBuildsBySerialGroupCalls_append (e1 e2 : List Event) :
    getRunningBuildsBySerialGroupCalls (e1 ++ e2) =
      getRunningBuildsBySerialGroupCalls e1 ++ getRunningBuildsBySerialGroupCalls e2 := by
  simp [getRunningBuildsBySerialGroupCalls]

/-- The calls of `GetNextPendingBuildBySerialGroup` among events in two parts. -/
theorem getNextPendingBuildBySerialGroupCalls_append (e1 e2 : List Event) :
    getNextPendingBuildBySerialGroupCalls (e1 ++ e2) =
      getNextPendingBuildBySerialGroupCalls e1 ++
        getNextPendingBuildBySerialGroupCalls e2 := by
  simp [getNextPendingBuildBySerialGroupCalls]

/-- What held for two parts of the events holds for the whole. -/
theorem Held.join {mem : Arrays} {e1 e2 : List Event} (h1 : Held mem e1) (h2 : Held mem e2) :
    Held mem (e1 ++ e2) := by
  intro c hc xs hxs
  rw [getRunningBuildsBySerialGroupCalls_append,
    getNextPendingBuildBySerialGroupCalls_append] at hc
  simp only [List.mem_append] at hc
  rcases hc with (hc | hc) | (hc | hc)
  · exact h1 c (List.mem_append_left _ hc) xs hxs
  · exact h2 c (List.mem_append_left _ hc) xs hxs
  · exact h1 c (List.mem_append_right _ hc) xs hxs
  · exact h2 c (List.mem_append_right _ hc) xs hxs

/-- One run after another. -/
theorem Ext.trans {s s1 s2 : State SavedJob Build Err W} {e1 e2 : List Event}
    (h1 : Ext s e1 s1) (h2 : Ext s1 e2 s2) : Ext s (e1 ++ e2) s2 where
  trace := by rw [h2.trace, h1.trace, List.append_assoc]
  getJob := by rw [h2.getJob, h1.getJob, getJobCalls_append, List.append_assoc]
  getRunning := by
    rw [h2.getRunning, h1.getRunning, getRunningBuildsBySerialGroupCalls_append,
      List.map_append, List.append_assoc]
  getNext := by
    rw [h2.getNext, h1.getNext, getNextPendingBuildBySerialGroupCalls_append,
      List.map_append, List.append_assoc]
  cfgGetJob := fun h => by
    rw [List.mem_append, not_or] at h
    exact ⟨(h2.cfgGetJob h.2).1.trans (h1.cfgGetJob h.1).1,
      (h2.cfgGetJob h.2).2.trans (h1.cfgGetJob h.1).2⟩
  cfgGetRunning := fun h => by
    rw [List.mem_append, not_or] at h
    exact ⟨(h2.cfgGetRunning h.2).1.trans (h1.cfgGetRunning h.1).1,
      (h2.cfgGetRunning h.2).2.trans (h1.cfgGetRunning h.1).2⟩
  cfgGetNext := fun h => by
    rw [List.mem_append, not_or] at h
    exact ⟨(h2.cfgGetNext h.2).1.trans (h1.cfgGetNext h.1).1,
      (h2.cfgGetNext h.2).2.trans (h1.cfgGetNext h.1).2⟩
  strings := fun h => by
    rw [List.mem_append, not_or] at h
    obtain ⟨m1, hm1⟩ := h1.strings h.1
    obtain ⟨m2, hm2⟩ := h2.strings h.2
    exact ⟨m1 ++ m2, by rw [hm2, hm1, List.append_assoc]⟩
  held := fun h => by
    rw [List.mem_append, not_or] at h
    obtain ⟨m2, hm2⟩ := h2.strings h.2
    have a1 : Held s2.strings e1 := by
      rw [hm2]
      exact (h1.held h.1).append m2
    exact a1.join (h2.held h.2)

/-- A step that notes nothing and leaves the fake alone. -/
theorem Ext.silent {s s1 : State SavedJob Build Err W} (htrace : s1.trace = s.trace)
    (hfake : s1.fake = s.fake) (hstrings : ∃ more : Arrays, s1.strings = s.strings ++ more) :
    Ext s [] s1 where
  trace := by simp [htrace]
  getJob := by simp [hfake, getJobCalls]
  getRunning := by simp [hfake, getRunningBuildsBySerialGroupCalls]
  getNext := by simp [hfake, getNextPendingBuildBySerialGroupCalls]
  cfgGetJob := fun _ => by simp [hfake]
  cfgGetRunning := fun _ => by simp [hfake]
  cfgGetNext := fun _ => by simp [hfake]
  strings := fun _ => hstrings
  held := fun _ c hc => by
    simp [getRunningBuildsBySerialGroupCalls, getNextPendingBuildBySerialGroupCalls] at hc

/-- A write to a string. -/
theorem Ext.write {s s1 : State SavedJob Build Err W}
    (htrace : s1.trace = s.trace ++ [Event.write]) (hfake : s1.fake = s.fake) :
    Ext s [Event.write] s1 where
  trace := htrace
  getJob := by simp [hfake, getJobCalls]
  getRunning := by simp [hfake, getRunningBuildsBySerialGroupCalls]
  getNext := by simp [hfake, getNextPendingBuildBySerialGroupCalls]
  cfgGetJob := fun _ => by simp [hfake]
  cfgGetRunning := fun _ => by simp [hfake]
  cfgGetNext := fun _ => by simp [hfake]
  strings := fun h => absurd (List.mem_singleton.mpr rfl) h
  held := fun h => absurd (List.mem_singleton.mpr rfl) h

/-- A step that configures `GetJob`: a call of `GetJobReturns` or an assignment to
`GetJobStub`. -/
theorem Ext.configureGetJob (s : State SavedJob Build Err W)
    (stub : Option (String → Prog SavedJob Build Err W (some Method.GetJob)))
    (results : getJobResults SavedJob Err) :
    Ext s [Event.configure Method.GetJob]
      { s.note (Event.configure Method.GetJob) with
        fake := { s.fake with GetJobStub := stub, getJobReturns := results } } where
  trace := rfl
  getJob := by simp [getJobCalls]
  getRunning := by simp [getRunningBuildsBySerialGroupCalls]
  getNext := by simp [getNextPendingBuildBySerialGroupCalls]
  cfgGetJob := fun h => absurd (List.mem_singleton.mpr rfl) h
  cfgGetRunning := fun _ => ⟨rfl, rfl⟩
  cfgGetNext := fun _ => ⟨rfl, rfl⟩
  strings := fun _ => ⟨[], by simp [State.note]⟩
  held := fun _ c hc => by
    simp [getRunningBuildsBySerialGroupCalls, getNextPendingBuildBySerialGroupCalls] at hc

/-- A step that configures `GetRunningBuildsBySerialGroup`. -/
theorem Ext.configureGetRunningBuildsBySerialGroup (s : State SavedJob Build Err W)
    (stub : Option (String → Slice →
      Prog SavedJob Build Err W (some Method.GetRunningBuildsBySerialGroup)))
    (results : getRunningBuildsResults Err) :
    Ext s [Event.configure Method.GetRunningBuildsBySerialGroup]
      { s.note (Event.configure Method.GetRunningBuildsBySerialGroup) with
        fake := { s.fake with
          GetRunningBuildsBySerialGroupStub := stub,
          getRunningBuildsBySerialGroupReturns := results } } where
  trace := rfl
  getJob := by simp [getJobCalls]
  getRunning := by simp [getRunningBuildsBySerialGroupCalls]
  getNext := by simp [getNextPendingBuildBySerialGroupCalls]
  cfgGetJob := fun _ => ⟨rfl, rfl⟩
  cfgGetRunning := fun h => absurd (List.mem_singleton.mpr rfl) h
  cfgGetNext := fun _ => ⟨rfl, rfl⟩
  strings := fun _ => ⟨[], by simp [State.note]⟩
  held := fun _ c hc => by
    simp [getRunningBuildsBySerialGroupCalls, getNextPendingBuildBySerialGroupCalls] at hc

/-- A step that configures `GetNextPendingBuildBySerialGroup`. -/
theorem Ext.configureGetNextPendingBuildBySerialGroup (s : State SavedJob Build Err W)
    (stub : Option (String → Slice →
      Prog SavedJob Build Err W (some Method.GetNextPendingBuildBySerialGroup)))
    (results : getNextPendingBuildResults Build Err) :
    Ext s [Event.configure Method.GetNextPendingBuildBySerialGroup]
      { s.note (Event.configure Method.GetNextPendingBuildBySerialGroup) with
        fake := { s.fake with
          GetNextPendingBuildBySerialGroupStub := stub,
          getNextPendingBuildBySerialGroupReturns := results } } where
  trace := rfl
  getJob := by simp [getJobCalls]
  getRunning := by simp [getRunningBuildsBySerialGroupCalls]
  getNext := by simp [getNextPendingBuildBySerialGroupCalls]
  cfgGetJob := fun _ => ⟨rfl, rfl⟩
  cfgGetRunning := fun _ => ⟨rfl, rfl⟩
  cfgGetNext := fun h => absurd (List.mem_singleton.mpr rfl) h
  strings := fun _ => ⟨[], by simp [State.note]⟩
  held := fun _ c hc => by
    simp [getRunningBuildsBySerialGroupCalls, getNextPendingBuildBySerialGroupCalls] at hc

/-- The entry of `GetJob`: the call is noted and the argument is recorded. -/
theorem Ext.recordGetJob (s : State SavedJob Build Err W) (job : String) :
    Ext s [Event.callGetJob job]
      { s.note (Event.callGetJob job) with
        fake := { s.fake with
          getJobArgsForCall := s.fake.getJobArgsForCall ++ [getJobArgs.mk job] } } where
  trace := rfl
  getJob := by simp [getJobCalls]
  getRunning := by simp [getRunningBuildsBySerialGroupCalls]
  getNext := by simp [getNextPendingBuildBySerialGroupCalls]
  cfgGetJob := fun _ => ⟨rfl, rfl⟩
  cfgGetRunning := fun _ => ⟨rfl, rfl⟩
  cfgGetNext := fun _ => ⟨rfl, rfl⟩
  strings := fun _ => ⟨[], by simp [State.note]⟩
  held := fun _ c hc => by
    simp [getRunningBuildsBySerialGroupCalls, getNextPendingBuildBySerialGroupCalls] at hc

/-- The entry of `GetRunningBuildsBySerialGroup`: the call is noted with the strings
of the slice, and the arguments are recorded. -/
theorem Ext.recordGetRunningBuildsBySerialGroup (s : State SavedJob Build Err W)
    (jobName : String) (serialGroups : Slice) :
    Ext s [Event.callGetRunningBuildsBySerialGroup jobName serialGroups
        (contents s.strings serialGroups)]
      { s.note (Event.callGetRunningBuildsBySerialGroup jobName serialGroups
          (contents s.strings serialGroups)) with
        fake := { s.fake with
          getRunningBuildsBySerialGroupArgsForCall :=
            s.fake.getRunningBuildsBySerialGroupArgsForCall ++
              [serialGroupArgs.mk jobName serialGroups] } } where
  trace := rfl
  getJob := by simp [getJobCalls]
  getRunning := by simp [getRunningBuildsBySerialGroupCalls]
  getNext := by simp [getNextPendingBuildBySerialGroupCalls]
  cfgGetJob := fun _ => ⟨rfl, rfl⟩
  cfgGetRunning := fun _ => ⟨rfl, rfl⟩
  cfgGetNext := fun _ => ⟨rfl, rfl⟩
  strings := fun _ => ⟨[], by simp [State.note]⟩
  held := fun _ c hc xs hxs => by
    simp [getRunningBuildsBySerialGroupCalls, getNextPendingBuildBySerialGroupCalls] at hc
    subst hc
    simpa [State.note] using hxs

/-- The entry of `GetNextPendingBuildBySerialGroup`: the call is noted with the
strings of the slice, and the arguments are recorded. -/
theorem Ext.recordGetNextPendingBuildBySerialGroup (s : State SavedJob Build Err W)
    (jobName : String) (serialGroups : Slice) :
    Ext s [Event.callGetNextPendingBuildBySerialGroup jobName serialGroups
        (contents s.strings serialGroups)]
      { s.note (Event.callGetNextPendingBuildBySerialGroup jobName serialGroups
          (contents s.strings serialGroups)) with
        fake := { s.fake with
          getNextPendingBuildBySerialGroupArgsForCall :=
            s.fake.getNextPendingBuildBySerialGroupArgsForCall ++
              [serialGroupArgs.mk jobName serialGroups] } } where
  trace := rfl
  getJob := by simp [getJobCalls]
  getRunning := by simp [getRunningBuildsBySerialGroupCalls]
  getNext := by simp [getNextPendingBuildBySerialGroupCalls]
  cfgGetJob := fun _ => ⟨rfl, rfl⟩
  cfgGetRunning := fun _ => ⟨rfl, rfl⟩
  cfgGetNext := fun _ => ⟨rfl, rfl⟩
  strings := fun _ => ⟨[], by simp [State.note]⟩
  held := fun _ c hc xs hxs => by
    simp [getRunningBuildsBySerialGroupCalls, getNextPendingBuildBySerialGroupCalls] at hc
    subst hc
    simpa [State.note] using hxs

/-- A call of `GetJob` that returns, when the stub is run by a runner whose runs
are extensions. -/
theorem GetJob_ext (run : Runner SavedJob Build Err W)
    (hrun : ∀ {k : Option Method} (p : Prog SavedJob Build Err W k)
      (s : State SavedJob Build Err W) (r : Res SavedJob Build Err k)
      (s1 : State SavedJob Build Err W), run p s = some (r, s1) → ∃ evs, Ext s evs s1)
    (s : State SavedJob Build Err W) (job : String) (r : SavedJob × Option Err)
    (s1 : State SavedJob Build Err W)
    (h : GetJob run (s.note (Event.callGetJob job)) job = some (r, s1)) :
    ∃ evs, Ext s evs s1 := by
  unfold GetJob at h
  dsimp only at h
  split at h
  · obtain ⟨evs, he⟩ := hrun _ _ _ _ h
    exact ⟨_, (Ext.recordGetJob s job).trans he⟩
  · simp only [Option.some.injEq, Prod.mk.injEq] at h
    obtain ⟨-, rfl⟩ := h
    exact ⟨_, Ext.recordGetJob s job⟩

/-- A call of `GetRunningBuildsBySerialGroup` that returns, when the stub is run by
a runner whose runs are extensions. -/
theorem GetRunningBuildsBySerialGroup_ext (run : Runner SavedJob Build Err W)
    (hrun : ∀ {k : Option Method} (p : Prog SavedJob Build Err W k)
      (s : State SavedJob Build Err W) (r : Res SavedJob Build Err k)
      (s1 : State SavedJob Build Err W), run p s = some (r, s1) → ∃ evs, Ext s evs s1)
    (s : State SavedJob Build Err W) (jobName : String) (serialGroups : Slice)
    (r : Slice × Option Err) (s1 : State SavedJob Build Err W)
    (h : GetRunningBuildsBySerialGroup run
      (s.note (Event.callGetRunningBuildsBySerialGroup jobName serialGroups
        (contents s.strings serialGroups))) jobName serialGroups = some (r, s1)) :
    ∃ evs, Ext s evs s1 := by
  unfold GetRunningBuildsBySerialGroup at h
  dsimp only at h
  split at h
  · obtain ⟨evs, he⟩ := hrun _ _ _ _ h
    exact ⟨_, (Ext.recordGetRunningBuildsBySerialGroup s jobName serialGroups).trans he⟩
  · simp only [Option.some.injEq, Prod.mk.injEq] at h
    obtain ⟨-, rfl⟩ := h
    exact ⟨_, Ext.recordGetRunningBuildsBySerialGroup s jobName serialGroups⟩

/-- A call of `GetNextPendingBuildBySerialGroup` that returns, when the stub is run
by a runner whose runs are extensions. -/
theorem GetNextPendingBuildBySerialGroup_ext (run : Runner SavedJob Build Err W)
    (hrun : ∀ {k : Option Method} (p : Prog SavedJob Build Err W k)
      (s : State SavedJob Build Err W) (r : Res SavedJob Build Err k)
      (s1 : State SavedJob Build Err W), run p s = some (r, s1) → ∃ evs, Ext s evs s1)
    (s : State SavedJob Build Err W) (jobName : String) (serialGroups : Slice)
    (r : Build × Bool × Option Err) (s1 : State SavedJob Build Err W)
    (h : GetNextPendingBuildBySerialGroup run
      (s.note (Event.callGetNextPendingBuildBySerialGroup jobName serialGroups
        (contents s.strings serialGroups))) jobName serialGroups = some (r, s1)) :
    ∃ evs, Ext s evs s1 := by
  unfold GetNextPendingBuildBySerialGroup at h
  dsimp only at h
  split at h
  · obtain ⟨evs, he⟩ := hrun _ _ _ _ h
    exact ⟨_, (Ext.recordGetNextPendingBuildBySerialGroup s jobName serialGroups).trans he⟩
  · simp only [Option.some.injEq, Prod.mk.injEq] at h
    obtain ⟨-, rfl⟩ := h
    exact ⟨_, Ext.recordGetNextPendingBuildBySerialGroup s jobName serialGroups⟩

/-- Every run that returns is an extension of the state it started from, by the
events it noted. -/
theorem eval_ext (n : Nat) :
    ∀ {k : Option Method} (p : Prog SavedJob Build Err W k)
      (s : State SavedJob Build Err W) (r : Res SavedJob Build Err k)
      (s1 : State SavedJob Build Err W), eval n p s = some (r, s1) → ∃ evs, Ext s evs s1 := by
  induction n with
  | zero =>
    intro k p s r s1 h
    simp [eval] at h
  | succ n ih =>
    intro k p s r s1 h
    cases p with
    | ret r0 =>
      simp only [eval, Option.some.injEq, Prod.mk.injEq] at h
      obtain ⟨-, rfl⟩ := h
      exact ⟨[], Ext.refl s⟩
    | callGetJob job cont =>
      simp only [eval] at h
      split at h
      · rename_i r0 s0 h0
        obtain ⟨e1, he1⟩ := GetJob_ext _ (fun p s r s1 hp => ih p s r s1 hp) s job r0 s0 h0
        obtain ⟨e2, he2⟩ := ih _ _ _ _ h
        exact ⟨_, he1.trans he2⟩
      · cases h
    | getJobCallCount cont =>
      simp only [eval] at h
      exact ih _ _ _ _ h
    | getJobArgsForCall i cont =>
      simp only [eval] at h
      split at h
      · exact ih _ _ _ _ h
      · cases h
    | getJobReturns result1 result2 cont =>
      simp only [eval] at h
      obtain ⟨e2, he2⟩ := ih _ _ _ _ h
      exact ⟨_, (Ext.configureGetJob s none ⟨result1, result2⟩).trans he2⟩
    | assignGetJobStub stub cont =>
      simp only [eval] at h
      obtain ⟨e2, he2⟩ := ih _ _ _ _ h
      exact ⟨_, (Ext.configureGetJob s (some stub) s.fake.getJobReturns).trans he2⟩
    | clearGetJobStub cont =>
      simp only [eval] at h
      obtain ⟨e2, he2⟩ := ih _ _ _ _ h
      exact ⟨_, (Ext.configureGetJob s none s.fake.getJobReturns).trans he2⟩
    | callGetRunningBuildsBySerialGroup jobName serialGroups cont =>
      simp only [eval] at h
      split at h
      · rename_i r0 s0 h0
        obtain ⟨e1, he1⟩ := GetRunningBuildsBySerialGroup_ext _
          (fun p s r s1 hp => ih p s r s1 hp) s jobName serialGroups r0 s0 h0
        obtain ⟨e2, he2⟩ := ih _ _ _ _ h
        exact ⟨_, he1.trans he2⟩
      · cases h
    | getRunningBuildsBySerialGroupCallCount cont =>
      simp only [eval] at h
      exact ih _ _ _ _ h
    | getRunningBuildsBySerialGroupArgsForCall i cont =>
      simp only [eval] at h
      split at h
      · exact ih _ _ _ _ h
      · cases h
    | getRunningBuildsBySerialGroupReturns result1 result2 cont =>
      simp only [eval] at h
      obtain ⟨e2, he2⟩ := ih _ _ _ _ h
      exact ⟨_, (Ext.configureGetRunningBuildsBySerialGroup s none
        ⟨result1, result2⟩).trans he2⟩
    | assignGetRunningBuildsBySerialGroupStub stub cont =>
      simp only [eval] at h
      obtain ⟨e2, he2⟩ := ih _ _ _ _ h
      exact ⟨_, (Ext.configureGetRunningBuildsBySerialGroup s (some stub)
        s.fake.getRunningBuildsBySerialGroupReturns).trans he2⟩
    | clearGetRunningBuildsBySerialGroupStub cont =>
      simp only [eval] at h
      obtain ⟨e2, he2⟩ := ih _ _ _ _ h
      exact ⟨_, (Ext.configureGetRunningBuildsBySerialGroup s none
        s.fake.getRunningBuildsBySerialGroupReturns).trans he2⟩
    | callGetNextPendingBuildBySerialGroup jobName serialGroups cont =>
      simp only [eval] at h
      split at h
      · rename_i r0 s0 h0
        obtain ⟨e1, he1⟩ := GetNextPendingBuildBySerialGroup_ext _
          (fun p s r s1 hp => ih p s r s1 hp) s jobName serialGroups r0 s0 h0
        obtain ⟨e2, he2⟩ := ih _ _ _ _ h
        exact ⟨_, he1.trans he2⟩
      · cases h
    | getNextPendingBuildBySerialGroupCallCount cont =>
      simp only [eval] at h
      exact ih _ _ _ _ h
    | getNextPendingBuildBySerialGroupArgsForCall i cont =>
      simp only [eval] at h
      split at h
      · exact ih _ _ _ _ h
      · cases h
    | getNextPendingBuildBySerialGroupReturns result1 result2 result3 cont =>
      simp only [eval] at h
      obtain ⟨e2, he2⟩ := ih _ _ _ _ h
      exact ⟨_, (Ext.configureGetNextPendingBuildBySerialGroup s none
        ⟨result1, result2, result3⟩).trans he2⟩
    | assignGetNextPendingBuildBySerialGroupStub stub cont =>
      simp only [eval] at h
      obtain ⟨e2, he2⟩ := ih _ _ _ _ h
      exact ⟨_, (Ext.configureGetNextPendingBuildBySerialGroup s (some stub)
        s.fake.getNextPendingBuildBySerialGroupReturns).trans he2⟩
    | clearGetNextPendingBuildBySerialGroupStub cont =>
      simp only [eval] at h
      obtain ⟨e2, he2⟩ := ih _ _ _ _ h
      exact ⟨_, (Ext.configureGetNextPendingBuildBySerialGroup s none
        s.fake.getNextPendingBuildBySerialGroupReturns).trans he2⟩
    | invokeGetJobStub job cont =>
      simp only [eval] at h
      split at h
      · split at h
        · rename_i r0 s0 h0
          obtain ⟨e1, he1⟩ := ih _ _ _ _ h0
          obtain ⟨e2, he2⟩ := ih _ _ _ _ h
          exact ⟨_, he1.trans he2⟩
        · cases h
      · cases h
    | invokeGetRunningBuildsBySerialGroupStub jobName serialGroups cont =>
      simp only [eval] at h
      split at h
      · split at h
        · rename_i r0 s0 h0
          obtain ⟨e1, he1⟩ := ih _ _ _ _ h0
          obtain ⟨e2, he2⟩ := ih _ _ _ _ h
          exact ⟨_, he1.trans he2⟩
        · cases h
      · cases h
    | invokeGetNextPendingBuildBySerialGroupStub jobName serialGroups cont =>
      simp only [eval] at h
      split at h
      · split at h
        · rename_i r0 s0 h0
          obtain ⟨e1, he1⟩ := ih _ _ _ _ h0
          obtain ⟨e2, he2⟩ := ih _ _ _ _ h
          exact ⟨_, he1.trans he2⟩
        · cases h
      · cases h
    | stubIsNil m cont =>
      simp only [eval] at h
      exact ih _ _ _ _ h
    | makeStrings xs cont =>
      simp only [eval] at h
      obtain ⟨e2, he2⟩ := ih _ _ _ _ h
      have he1 : Ext s [] { s with strings := (make s.strings xs).2 } :=
        Ext.silent rfl rfl ⟨[xs], rfl⟩
      exact ⟨_, he1.trans he2⟩
    | readString sl i cont =>
      simp only [eval] at h
      split at h
      · exact ih _ _ _ _ h
      · cases h
    | writeString sl i v cont =>
      simp only [eval] at h
      split at h
      · rename_i mem hmem
        obtain ⟨e2, he2⟩ := ih _ _ _ _ h
        have he1 : Ext s [Event.write] { s.note Event.write with strings := mem } :=
          Ext.write rfl rfl
        exact ⟨_, he1.trans he2⟩
      · cases h
    | getW cont =>
      simp only [eval] at h
      exact ih _ _ _ _ h
    | putW w cont =>
      simp only [eval] at h
      obtain ⟨e2, he2⟩ := ih _ _ _ _ h
      have he1 : Ext s [] { s with w := w } := Ext.silent rfl rfl ⟨[], by simp⟩
      exact ⟨_, he1.trans he2⟩

end lemmas

section claims

variable {SavedJob Build Err W : Type}

/-- Reading a record of `GetJob` through the method is reading the list of argument
records at that position. -/
theorem GetJobArgsForCall_eq (fake : FakeJobServiceDB SavedJob Build Err W) (i : Nat) :
    GetJobArgsForCall fake (i : Int) = (fake.getJobArgsForCall.map getJobArgs.job)[i]? := by
  simp [GetJobArgsForCall]

/-- Reading a record of `GetRunningBuildsBySerialGroup` through the method. -/
theorem GetRunningBuildsBySerialGroupArgsForCall_eq
    (fake : FakeJobServiceDB SavedJob Build Err W) (i : Nat) :
    GetRunningBuildsBySerialGroupArgsForCall fake (i : Int) =
      (fake.getRunningBuildsBySerialGroupArgsForCall.map
        (fun a => (a.jobName, a.serialGroups)))[i]? := by
  simp [GetRunningBuildsBySerialGroupArgsForCall]

/-- Reading a record of `GetNextPendingBuildBySerialGroup` through the method. -/
theorem GetNextPendingBuildBySerialGroupArgsForCall_eq
    (fake : FakeJobServiceDB SavedJob Build Err W) (i : Nat) :
    GetNextPendingBuildBySerialGroupArgsForCall fake (i : Int) =
      (fake.getNextPendingBuildBySerialGroupArgsForCall.map
        (fun a => (a.jobName, a.serialGroups)))[i]? := by
  simp [GetNextPendingBuildBySerialGroupArgsForCall]

/-- The events of a run are the events that were there and those the run noted;
the run is an extension by the latter. -/
theorem eval_ext_of_trace (n : Nat) {k : Option Method} (p : Prog SavedJob Build Err W k)
    (s : State SavedJob Build Err W) (out : Res SavedJob Build Err k × State SavedJob Build Err W)
    (hrun : eval n p s = some out) (evs : List Event) (htrace : out.2.trace = s.trace ++ evs) :
    Ext s evs out.2 := by
  obtain ⟨e, he⟩ := eval_ext n p s out.1 out.2 hrun
  have h := he.trace
  rw [htrace] at h
  rw [List.append_cancel_left h]
  exact he

/-- The answer of `GetJob` when its stub is `nil`: the configured results. -/
theorem GetJob_of_stub_nil (run : Runner SavedJob Build Err W)
    (s : State SavedJob Build Err W) (job : String) (h : s.fake.GetJobStub = none) :
    (GetJob run s job).map Prod.fst =
      some (s.fake.getJobReturns.result1, s.fake.getJobReturns.result2) := by
  simp [GetJob, h]

/-- The answer of `GetRunningBuildsBySerialGroup` when its stub is `nil`. -/
theorem GetRunningBuildsBySerialGroup_of_stub_nil (run : Runner SavedJob Build Err W)
    (s : State SavedJob Build Err W) (jobName : String) (serialGroups : Slice)
    (h : s.fake.GetRunningBuildsBySerialGroupStub = none) :
    (GetRunningBuildsBySerialGroup run s jobName serialGroups).map Prod.fst =
      some (s.fake.getRunningBuildsBySerialGroupReturns.result1,
        s.fake.getRunningBuildsBySerialGroupReturns.result2) := by
  simp [GetRunningBuildsBySerialGroup, h]

/-- The answer of `GetNextPendingBuildBySerialGroup` when its stub is `nil`. -/
theorem GetNextPendingBuildBySerialGroup_of_stub_nil (run : Runner SavedJob Build Err W)
    (s : State SavedJob Build Err W) (jobName : String) (serialGroups : Slice)
    (h : s.fake.GetNextPendingBuildBySerialGroupStub = none) :
    (GetNextPendingBuildBySerialGroup run s jobName serialGroups).map Prod.fst =
      some (s.fake.getNextPendingBuildBySerialGroupReturns.result1,
        s.fake.getNextPendingBuildBySerialGroupReturns.result2,
        s.fake.getNextPendingBuildBySerialGroupReturns.result3) := by
  simp [GetNextPendingBuildBySerialGroup, h]

/-- C7: absence of a pending build is found=false, not an error. On the zero-value
fake, and on a fake that started as the zero value and for which nothing was
configured for `GetNextPendingBuildBySerialGroup` (no assignment to its stub, no
call of its `Returns`, by the test or by a stub), whatever else was run before,
the call returns the zero build, found=false and a nil error, for every job name
and every slice of serial groups. -/
theorem unconfigured_GetNextPendingBuildBySerialGroup_not_found
    [Inhabited SavedJob] [Inhabited Build]
    (run : Runner SavedJob Build Err W) (strings : Arrays) (w : W)
    (jobName : String) (serialGroups : Slice) :
    (GetNextPendingBuildBySerialGroup run (State.zero strings w) jobName serialGroups).map
        Prod.fst = some (default, false, none) ∧
      ∀ (n : Nat) (p : Prog SavedJob Build Err W none)
        (out : Unit × State SavedJob Build Err W),
        eval n p (State.zero strings w) = some out →
        Event.configure Method.GetNextPendingBuildBySerialGroup ∉ out.2.trace →
        (GetNextPendingBuildBySerialGroup run out.2 jobName serialGroups).map Prod.fst =
          some (default, false, none) := by
  refine ⟨GetNextPendingBuildBySerialGroup_of_stub_nil run _ jobName serialGroups rfl, ?_⟩
  intro n p out hrun hcfg
  have he := eval_ext_of_trace n p (State.zero strings w) out hrun out.2.trace
    (by simp [State.zero])
  have hc := he.cfgGetNext hcfg
  rw [GetNextPendingBuildBySerialGroup_of_stub_nil run _ jobName serialGroups hc.1, hc.2]
  rfl

/-- A witness of C7: after `otherRun`, which configures and calls the two other
methods, the query for a pending build is answered with the zero build,
found=false and a nil error. -/
theorem unconfigured_GetNextPendingBuildBySerialGroup_not_found_witness :
    (GetNextPendingBuildBySerialGroup (fun p st => eval 5 p st)
        ((eval 10 otherRun (State.zero [] ())).get rfl).2 "deploy-a" Slice.zero).map
      Prod.fst = some ((0 : Nat), false, (none : Option String)) :=
  (unconfigured_GetNextPendingBuildBySerialGroup_not_found (fun p st => eval 5 p st) [] ()
    "deploy-a" Slice.zero).2 10 otherRun ((eval 10 otherRun (State.zero [] ())).get rfl)
    (Option.some_get _).symm (by decide)

/-- C8: configured returns round-trip and override an earlier stub. From any
state of the fake, stub installed or not, after `GetJobReturns(r1, r2)` every
later call of `GetJob` returns `(r1, r2)` for every argument, whatever program
that does not configure `GetJob` again is run in between; the same holds for
`GetRunningBuildsBySerialGroup` and for `GetNextPendingBuildBySerialGroup`, whose
call returns `(b, f, e)` after `GetNextPendingBuildBySerialGroupReturns(b, f, e)`.
Each `Returns` leaves the stub of its method nil. -/
theorem Returns_round_trip (s : State SavedJob Build Err W) (n : Nat) {k : Option Method}
    (p : Prog SavedJob Build Err W k) (run : Runner SavedJob Build Err W)
    (jobName : String) (serialGroups : Slice) :
    (∀ (r1 : SavedJob) (r2 : Option Err)
        (out : Res SavedJob Build Err k × State SavedJob Build Err W) (evs : List Event),
        eval n p { s with fake := GetJobReturns s.fake r1 r2 } = some out →
        out.2.trace = s.trace ++ evs →
        Event.configure Method.GetJob ∉ evs →
        (GetJob run out.2 jobName).map Prod.fst = some (r1, r2)) ∧
      (∀ (r1 : Slice) (r2 : Option Err)
        (out : Res SavedJob Build Err k × State SavedJob Build Err W) (evs : List Event),
        eval n p { s with fake := GetRunningBuildsBySerialGroupReturns s.fake r1 r2 } =
          some out →
        out.2.trace = s.trace ++ evs →
        Event.configure Method.GetRunningBuildsBySerialGroup ∉ evs →
        (GetRunningBuildsBySerialGroup run out.2 jobName serialGroups).map Prod.fst =
          some (r1, r2)) ∧
      (∀ (b : Build) (f : Bool) (e : Option Err)
        (out : Res SavedJob Build Err k × State SavedJob Build Err W) (evs : List Event),
        eval n p { s with fake := GetNextPendingBuildBySerialGroupReturns s.fake b f e } =
          some out →
        out.2.trace = s.trace ++ evs →
        Event.configure Method.GetNextPendingBuildBySerialGroup ∉ evs →
        (GetNextPendingBuildBySerialGroup run out.2 jobName serialGroups).map Prod.fst =
          some (b, f, e)) ∧
      (∀ (r1 : SavedJob) (r2 : Option Err), (GetJobReturns s.fake r1 r2).GetJobStub = none) ∧
      (∀ (r1 : Slice) (r2 : Option Err),
        (GetRunningBuildsBySerialGroupReturns s.fake r1 r2).GetRunningBuildsBySerialGroupStub =
          none) ∧
      (∀ (b : Build) (f : Bool) (e : Option Err),
        (GetNextPendingBuildBySerialGroupReturns s.fake b f e).GetNextPendingBuildBySerialGroupStub =
          none) := by
  refine ⟨?_, ?_, ?_, fun _ _ => rfl, fun _ _ => rfl, fun _ _ _ => rfl⟩
  · intro r1 r2 out evs hrun htrace hcfg
    have hc := (eval_ext_of_trace n p _ out hrun evs htrace).cfgGetJob hcfg
    rw [GetJob_of_stub_nil run _ jobName hc.1, hc.2]
    rfl
  · intro r1 r2 out evs hrun htrace hcfg
    have hc := (eval_ext_of_trace n p _ out hrun evs htrace).cfgGetRunning hcfg
    rw [GetRunningBuildsBySerialGroup_of_stub_nil run _ jobName serialGroups hc.1, hc.2]
    rfl
  · intro b f e out evs hrun htrace hcfg
    have hc := (eval_ext_of_trace n p _ out hrun evs htrace).cfgGetNext hcfg
    rw [GetNextPendingBuildBySerialGroup_of_stub_nil run _ jobName serialGroups hc.1, hc.2]
    rfl

/-- A witness of C8: on `stubbedState`, whose stub answers `(7, true, nil)`,
`GetNextPendingBuildBySerialGroupReturns(10, true, "storage")` is called and then
`otherRun` is run; the next call returns `(10, true, "storage")`. -/
theorem Returns_round_trip_witness :
    (GetNextPendingBuildBySerialGroup (fun p st => eval 5 p st)
        ((eval 10 otherRun
          { stubbedState with
            fake := GetNextPendingBuildBySerialGroupReturns stubbedState.fake 10 true
              (some "storage") }).get rfl).2
        "deploy-a" Slice.zero).map Prod.fst = some ((10 : Nat), true, some "storage") :=
  (Returns_round_trip stubbedState 10 otherRun (fun p st => eval 5 p st)
    "deploy-a" Slice.zero).2.2.1 10 true (some "storage")
    ((eval 10 otherRun
      { stubbedState with
        fake := GetNextPendingBuildBySerialGroupReturns stubbedState.fake 10 true
          (some "storage") }).get rfl)
    [Event.configure Method.GetJob, Event.callGetJob "deploy-a",
      Event.configure Method.GetRunningBuildsBySerialGroup]
    (Option.some_get _).symm rfl (by decide)

/-- C10: a stub takes precedence over configured returns. Whenever the stub of a
faked method is not nil at the time of the call, the call is the run of the stub
on the same arguments, passed in the same order, on the fake that holds the new
record: it returns what the stub returns and leaves the state the stub leaves.
This holds for every content of the configured results, so values stored by an
earlier `Returns` are ignored. -/
theorem stub_takes_precedence (run : Runner SavedJob Build Err W)
    (s : State SavedJob Build Err W) (jobName : String) (serialGroups : Slice) :
    (∀ stub : String → Prog SavedJob Build Err W (some Method.GetJob),
        s.fake.GetJobStub = some stub →
        GetJob run s jobName =
          run (stub jobName)
            { s with
              fake := { s.fake with
                getJobArgsForCall :=
                  s.fake.getJobArgsForCall ++ [getJobArgs.mk jobName] } }) ∧
      (∀ stub : String → Slice →
          Prog SavedJob Build Err W (some Method.GetRunningBuildsBySerialGroup),
        s.fake.GetRunningBuildsBySerialGroupStub = some stub →
        GetRunningBuildsBySerialGroup run s jobName serialGroups =
          run (stub jobName serialGroups)
            { s with
              fake := { s.fake with
                getRunningBuildsBySerialGroupArgsForCall :=
                  s.fake.getRunningBuildsBySerialGroupArgsForCall ++
                    [serialGroupArgs.mk jobName serialGroups] } }) ∧
      (∀ stub : String → Slice →
          Prog SavedJob Build Err W (some Method.GetNextPendingBuildBySerialGroup),
        s.fake.GetNextPendingBuildBySerialGroupStub = some stub →
        GetNextPendingBuildBySerialGroup run s jobName serialGroups =
          run (stub jobName serialGroups)
            { s with
              fake := { s.fake with
                getNextPendingBuildBySerialGroupArgsForCall :=
                  s.fake.getNextPendingBuildBySerialGroupArgsForCall ++
                    [serialGroupArgs.mk jobName serialGroups] } }) := by
  refine ⟨?_, ?_, ?_⟩
  · intro stub h
    simp [GetJob, h]
  · intro stub h
    simp [GetRunningBuildsBySerialGroup, h]
  · intro stub h
    simp [GetNextPendingBuildBySerialGroup, h]

/-- A witness of C10: on `overriddenState`, where
`GetRunningBuildsBySerialGroupReturns(nil, "storage")` came first and a stub was
assigned after it, the call returns what the stub returns, the slice it was
handed and a nil error, not the stored values. -/
theorem stub_takes_precedence_witness :
    (GetRunningBuildsBySerialGroup (fun p st => eval 5 p st) overriddenState "deploy-a"
        { ptr := some (0, 0), len := 2, cap := 2 }).map Prod.fst =
      some ({ ptr := some (0, 0), len := 2, cap := 2 }, (none : Option String)) :=
  (congrArg (Option.map Prod.fst)
    ((stub_takes_precedence (fun p st => eval 5 p st) overriddenState "deploy-a"
      { ptr := some (0, 0), len := 2, cap := 2 }).2.1
      (fun _ sg => Prog.ret (sg, none)) rfl)).trans rfl

/-- C9, as stated, fails: after `aliasRun` from the zero value it is not true that
`ArgsForCall(i)` of `GetNextPendingBuildBySerialGroup` shows, for every recorded
call, the strings that the call was given. The first call was given
`["prod", "staging"]`; the stub that answered the second call wrote to the same
array, and record 0 now shows `["hijacked", "staging"]`. -/
theorem later_stub_write_changes_earlier_record :
    ¬ (∀ out : Unit × State Nat Nat String Unit,
        eval 10 aliasRun (State.zero [] ()) = some out →
        ∀ (i : Nat) (hi : i < (getNextPendingBuildBySerialGroupCalls out.2.trace).length),
          getNextPendingBuildBySerialGroupStringsNow out.2 (i : Int) =
            ((getNextPendingBuildBySerialGroupCalls out.2.trace).get ⟨i, hi⟩).2.2) := by
  intro hall
  have h := hall ((eval 10 aliasRun (State.zero [] ())).get rfl) (Option.some_get _).symm 0
    (by decide)
  revert h
  decide

/-- C9, amended: calls are recorded in order, by the values passed. Start from the
zero value and run any test, with calls answered by a stub or by configured
results and calls made by stubs counted too. For each of the three methods,
`CallCount` returns the number `n` of its calls, and `ArgsForCall(i)` returns, for
every `0 <= i < n`, the job name of its `i`-th call and the very slice that was
passed: the same slice header, not a copy of the strings. Whatever is run
afterwards, `ArgsForCall(i)` returns the same for those `i`. As long as no string
of a slice is written, the strings read through a recorded slice are those it
held at the time of the call. -/
theorem calls_recorded_in_order [Inhabited SavedJob] [Inhabited Build]
    (n : Nat) (p : Prog SavedJob Build Err W none) (strings : Arrays) (w : W)
    (out : Unit × State SavedJob Build Err W)
    (hrun : eval n p (State.zero strings w) = some out) :
    (GetJobCallCount out.2.fake = ((getJobCalls out.2.trace).length : Int) ∧
      (∀ (i : Nat) (hi : i < (getJobCalls out.2.trace).length),
        GetJobArgsForCall out.2.fake (i : Int) =
          some ((getJobCalls out.2.trace).get ⟨i, hi⟩)) ∧
      (∀ (m : Nat) (k : Option Method) (q : Prog SavedJob Build Err W k)
        (out2 : Res SavedJob Build Err k × State SavedJob Build Err W) (i : Nat),
        eval m q out.2 = some out2 → i < (getJobCalls out.2.trace).length →
        GetJobArgsForCall out2.2.fake (i : Int) = GetJobArgsForCall out.2.fake (i : Int))) ∧
    (GetRunningBuildsBySerialGroupCallCount out.2.fake =
        ((getRunningBuildsBySerialGroupCalls out.2.trace).length : Int) ∧
      (∀ (i : Nat) (hi : i < (getRunningBuildsBySerialGroupCalls out.2.trace).length),
        GetRunningBuildsBySerialGroupArgsForCall out.2.fake (i : Int) =
          some (((getRunningBuildsBySerialGroupCalls out.2.trace).get ⟨i, hi⟩).1,
            ((getRunningBuildsBySerialGroupCalls out.2.trace).get ⟨i, hi⟩).2.1)) ∧
      (∀ (m : Nat) (k : Option Method) (q : Prog SavedJob Build Err W k)
        (out2 : Res SavedJob Build Err k × State SavedJob Build Err W) (i : Nat),
        eval m q out.2 = some out2 →
        i < (getRunningBuildsBySerialGroupCalls out.2.trace).length →
        GetRunningBuildsBySerialGroupArgsForCall out2.2.fake (i : Int) =
          GetRunningBuildsBySerialGroupArgsForCall out.2.fake (i : Int)) ∧
      (Event.write ∉ out.2.trace →
        ∀ (i : Nat) (hi : i < (getRunningBuildsBySerialGroupCalls out.2.trace).length)
          (xs : List String),
          ((getRunningBuildsBySerialGroupCalls out.2.trace).get ⟨i, hi⟩).2.2 = some xs →
          getRunningBuildsBySerialGroupStringsNow out.2 (i : Int) = some xs)) ∧
    (GetNextPendingBuildBySerialGroupCallCount out.2.fake =
        ((getNextPendingBuildBySerialGroupCalls out.2.trace).length : Int) ∧
      (∀ (i : Nat) (hi : i < (getNextPendingBuildBySerialGroupCalls out.2.trace).length),
        GetNextPendingBuildBySerialGroupArgsForCall out.2.fake (i : Int) =
          some (((getNextPendingBuildBySerialGroupCalls out.2.trace).get ⟨i, hi⟩).1,
            ((getNextPendingBuildBySerialGroupCalls out.2.trace).get ⟨i, hi⟩).2.1)) ∧
      (∀ (m : Nat) (k : Option Method) (q : Prog SavedJob Build Err W k)
        (out2 : Res SavedJob Build Err k × State SavedJob Build Err W) (i : Nat),
        eval m q out.2 = some out2 →
        i < (getNextPendingBuildBySerialGroupCalls out.2.trace).length →
        GetNextPendingBuildBySerialGroupArgsForCall out2.2.fake (i : Int) =
          GetNextPendingBuildBySerialGroupArgsForCall out.2.fake (i : Int)) ∧
      (Event.write ∉ out.2.trace →
        ∀ (i : Nat) (hi : i < (getNextPendingBuildBySerialGroupCalls out.2.trace).length)
          (xs : List String),
          ((getNextPendingBuildBySerialGroupCalls out.2.trace).get ⟨i, hi⟩).2.2 = some xs →
          getNextPendingBuildBySerialGroupStringsNow out.2 (i : Int) = some xs)) := by
  have he := eval_ext_of_trace n p (State.zero strings w) out hrun out.2.trace
    (by simp [State.zero])
  have hj : out.2.fake.getJobArgsForCall.map getJobArgs.job = getJobCalls out.2.trace := by
    rw [he.getJob]
    simp [State.zero, zero]
  have hr : out.2.fake.getRunningBuildsBySerialGroupArgsForCall.map
      (fun a => (a.jobName, a.serialGroups)) =
      (getRunningBuildsBySerialGroupCalls out.2.trace).map (fun c => (c.1, c.2.1)) := by
    rw [he.getRunning]
    simp [State.zero, zero]
  have hn : out.2.fake.getNextPendingBuildBySerialGroupArgsForCall.map
      (fun a => (a.jobName, a.serialGroups)) =
      (getNextPendingBuildBySerialGroupCalls out.2.trace).map (fun c => (c.1, c.2.1)) := by
    rw [he.getNext]
    simp [State.zero, zero]
  refine ⟨⟨?_, ?_, ?_⟩, ⟨?_, ?_, ?_, ?_⟩, ⟨?_, ?_, ?_, ?_⟩⟩
  · have h := congrArg List.length hj
    rw [List.length_map] at h
    simp [GetJobCallCount, h]
  · intro i hi
    rw [GetJobArgsForCall_eq, hj]
    simp [List.getElem?_eq_getElem hi]
  · intro m k q out2 i hq hi
    obtain ⟨e2, he2⟩ := eval_ext m q out.2 out2.1 out2.2 hq
    rw [GetJobArgsForCall_eq, GetJobArgsForCall_eq, he2.getJob, hj]
    exact List.getElem?_append_left hi
  · have h := congrArg List.length hr
    rw [List.length_map, List.length_map] at h
    simp [GetRunningBuildsBySerialGroupCallCount, h]
  · intro i hi
    rw [GetRunningBuildsBySerialGroupArgsForCall_eq, hr]
    simp [List.getElem?_eq_getElem hi]
  · intro m k q out2 i hq hi
    obtain ⟨e2, he2⟩ := eval_ext m q out.2 out2.1 out2.2 hq
    rw [GetRunningBuildsBySerialGroupArgsForCall_eq,
      GetRunningBuildsBySerialGroupArgsForCall_eq, he2.getRunning, hr]
    exact List.getElem?_append_left (by simpa using hi)
  · intro hw i hi xs hxs
    have hheld := he.held hw
    have hmem : (getRunningBuildsBySerialGroupCalls out.2.trace).get ⟨i, hi⟩ ∈
        getRunningBuildsBySerialGroupCalls out.2.trace ++
          getNextPendingBuildBySerialGroupCalls out.2.trace :=
      List.mem_append_left _ (List.get_mem _ i hi)
    unfold getRunningBuildsBySerialGroupStringsNow
    rw [GetRunningBuildsBySerialGroupArgsForCall_eq, hr]
    simp only [List.getElem?_map, List.getElem?_eq_getElem hi, Option.map_some',
      Option.some_bind]
    exact hheld _ hmem xs hxs
  · have h := congrArg List.length hn
    rw [List.length_map, List.length_map] at h
    simp [GetNextPendingBuildBySerialGroupCallCount, h]
  · intro i hi
    rw [GetNextPendingBuildBySerialGroupArgsForCall_eq, hn]
    simp [List.getElem?_eq_getElem hi]
  · intro m k q out2 i hq hi
    obtain ⟨e2, he2⟩ := eval_ext m q out.2 out2.1 out2.2 hq
    rw [GetNextPendingBuildBySerialGroupArgsForCall_eq,
      GetNextPendingBuildBySerialGroupArgsForCall_eq, he2.getNext, hn]
    exact List.getElem?_append_left (by simpa using hi)
  · intro hw i hi xs hxs
    have hheld := he.held hw
    have hmem : (getNextPendingBuildBySerialGroupCalls out.2.trace).get ⟨i, hi⟩ ∈
        getRunningBuildsBySerialGroupCalls out.2.trace ++
          getNextPendingBuildBySerialGroupCalls out.2.trace :=
      List.mem_append_right _ (List.get_mem _ i hi)
    unfold getNextPendingBuildBySerialGroupStringsNow
    rw [GetNextPendingBuildBySerialGroupArgsForCall_eq, hn]
    simp only [List.getElem?_map, List.getElem?_eq_getElem hi, Option.map_some',
      Option.some_bind]
    exact hheld _ hmem xs hxs

/-- A witness of C9: after `sampleRun` the second recorded call of
`GetNextPendingBuildBySerialGroup`, which the stub answered, has the job name
`"deploy-b"` and the slice of the second array that was passed. -/
theorem calls_recorded_in_order_witness :
    GetNextPendingBuildBySerialGroupArgsForCall
        ((eval 12 sampleRun (State.zero [] ())).get rfl).2.fake 1 =
      some ("deploy-b", { ptr := some (1, 0), len := 2, cap := 2 }) :=
  (calls_recorded_in_order 12 sampleRun [] ()
    ((eval 12 sampleRun (State.zero [] ())).get rfl) (Option.some_get _).symm).2.2.2.1 1
    (by decide)

end claims

end fakes
